import Mathlib

/-!
The tracers trace_openat and trace_openat_ftrace: a shallow embedding.

Verification development for the two openat tracers of the repository:

* `src/modules/trace_openat/trace_openat.c` (kprobe backend, "probe"),
* `src/modules/trace_openat_ftrace/trace_openat_ftrace.c` (ftrace backend, "patch"),

and, in the namespace `Promote`, for the write handler of
`src/modules/promote/promote.c`.

Machine words are natural numbers; the conversions of the source that can
change a value, the cast `(int)` of a register and the return of a `size_t` as
`ssize_t`, are written out with `%`.
Kernel services that the modules call but do not define (kprobes, ftrace,
`strncpy_from_user`, `copy_from_user`, `kstrtoint`, credentials, `printk`) are
modelled as a host: an outcome oracle plus
the resources it holds and the chronological list of calls it received.
-/

namespace TraceOpenat

/-! ## Constants and plain data -/

/-- The size of the on-stack path buffer: `#define MAX_PATH_LEN 256`. -/
def MAX_PATH_LEN : Nat := 256

/-- The errno behind `-EFAULT`. -/
def EFAULT : Int := 14

/-- The errno behind `-ENOENT`. -/
def ENOENT : Int := 2

/-- The conversion `(int)x` of a 64-bit register value: keep the low 32 bits and
read them as a two's complement number. -/
def int_cast (x : Nat) : Int :=
  if x % 2 ^ 32 < 2 ^ 31 then ((x % 2 ^ 32 : Nat) : Int)
  else ((x % 2 ^ 32 : Nat) : Int) - 2 ^ 32

/-- The register block `struct pt_regs`: `regs[i]` is the i-th general register. -/
structure pt_regs where
  regs : Nat → Nat

/-- The argument snapshot `struct ftrace_regs` handed to an ftrace callback. -/
structure ftrace_regs where
  regs : Nat → Nat

/-- Modelled from the spec: `ftrace_regs_get_argument`, the arm64 accessor of
the kernel headers (absent from the repository): argument `n` of the traced
function is register `n`, for the eight argument registers, and 0 beyond. -/
def ftrace_regs_get_argument (fregs : ftrace_regs) (n : Nat) : Nat :=
  if n < 8 then fregs.regs n else 0

/-- The fields of `current` that the tracers read. -/
structure task_struct where
  pid : Int
  comm : String

/-- The arguments of one trace line: what `pr_info` receives in a handler. The
path is the C string held by `kbuf`. -/
structure TraceEvent where
  pid : Int
  comm : String
  dfd : Int
  path : List Nat
  flags : Nat
  deriving DecidableEq

/-- Severity of a kernel log line. -/
inductive Level
  | err
  | warn
  | info
  deriving DecidableEq

/-- The kernel log lines the two modules can print, one constructor per
`pr_err` / `pr_warn` / `pr_info` call site, with the formatted arguments. -/
inductive LogLine
  /-- Line "trace_openat: fatal: failed to register kprobe on %s: %d". -/
  | kprobe_fatal (sym : String) (ret : Int)
  /-- Line "trace_openat: openat2 kprobe failed (%d)". -/
  | openat2_failed (ret : Int)
  /-- Line "trace_openat: kprobes registered (openat%s)"; the flag tells "+openat2". -/
  | kprobes_registered (with_openat2 : Bool)
  /-- Line "filtering to PID %d" (either module). -/
  | filtering (pid : Int)
  /-- Line "logging all PIDs" (either module). -/
  | logging_all
  /-- Line "trace_openat: kprobes unregistered". -/
  | kprobes_unregistered
  /-- The two lines "failed to find do_sys_openat2" and "ensure CONFIG_KALLSYMS=y". -/
  | symbol_not_found
  /-- Line "trace_openat_ftrace: found do_sys_openat2 at %pK". -/
  | symbol_found (addr : Nat)
  /-- Line "trace_openat_ftrace: failed to set ftrace filter: %d". -/
  | filter_failed (ret : Int)
  /-- Line "trace_openat_ftrace: failed to register ftrace: %d". -/
  | register_failed (ret : Int)
  /-- Line "trace_openat_ftrace: hook registered on do_sys_openat2". -/
  | hook_registered
  /-- Line "trace_openat_ftrace: hook removed". -/
  | hook_removed
  /-- The trace line of a handler: "PID %d (%s) openat(dfd=%d, \"%s\", flags=0x%lx)". -/
  | trace (e : TraceEvent)
  deriving DecidableEq

/-- The severity each line is printed with. -/
def LogLine.level : LogLine → Level
  | .kprobe_fatal _ _ => .err
  | .openat2_failed _ => .warn
  | .symbol_not_found => .err
  | .filter_failed _ => .err
  | .register_failed _ => .err
  | _ => .info

/-- One call into the host kernel, with the status the host answered where the
module looks at it. The lists of such calls are chronological. -/
inductive Call
  | register_kprobe (sym : String) (ret : Int)
  | unregister_kprobe (sym : String)
  | ftrace_set_filter_ip (ip : Nat) (remove : Bool) (ret : Int)
  | register_ftrace_function (ret : Int)
  | unregister_ftrace_function
  | strncpy_from_user (src : Nat) (count : Nat)
  | printk (line : LogLine)
  deriving DecidableEq

/-! ## The cross-space string read -/

/-- User memory as the handler sees it: the byte at an address, or `none` when
the address cannot be read without sleeping (unmapped or not resident). -/
abbrev UserMem := Nat → Option Nat

/-- The copy loop of `strncpy_from_user`: `i` bytes are already in `dst`, `n`
more may be copied. Answers the return value and the buffer. -/
def strncpy_loop (umem : UserMem) (src : Nat) : Nat → Nat → List Nat → Int × List Nat
  | 0, i, dst => ((i : Int), dst)
  | n + 1, i, dst =>
    match umem (src + i) with
    | none => (-EFAULT, dst)
    | some b =>
      if b = 0 then ((i : Int), dst.set i 0)
      else strncpy_loop umem src n (i + 1) (dst.set i b)

/-- Modelled from the spec: `strncpy_from_user`, the bounded non-blocking
cross-space string read of the host kernel (absent from the repository). It
copies bytes from `src` into `dst` up to and including a terminator, at most
`count` bytes, and returns the length of the string copied (terminator not
counted), `count` when no terminator was met within `count` bytes, and
`-EFAULT` as soon as a byte cannot be read. -/
def strncpy_from_user (umem : UserMem) (dst : List Nat) (src count : Nat) : Int × List Nat :=
  strncpy_loop umem src count 0 dst

/-- The string a bounded read obtains at `src` within `count` bytes: the bytes
before the first terminator, or the first `count` bytes, or `none` on a fault. -/
def read_bounded (umem : UserMem) : Nat → Nat → Option (List Nat)
  | _, 0 => some []
  | src, n + 1 =>
    match umem src with
    | none => none
    | some b =>
      if b = 0 then some []
      else (read_bounded umem (src + 1) n).map (fun s => b :: s)

/-- The string `s` is stored at `ptr`: its bytes are readable and nonzero, and a
readable terminator follows them. -/
def string_at (umem : UserMem) : Nat → List Nat → Bool
  | ptr, [] => umem ptr == some 0
  | ptr, b :: s => b != 0 && umem ptr == some b && string_at umem (ptr + 1) s

/-- The C string held by a buffer: the bytes before its first zero byte (what
the conversion "%s" prints). -/
def cstr (buf : List Nat) : List Nat :=
  buf.takeWhile (fun b => b != 0)

/-! ## The handlers -/

/-- What a handler invocation can see: the module parameter `target_pid`, the
calling task `current`, user memory, the kernel memory holding saved register
blocks, and the stale contents of the stack slots that become `kbuf`. -/
structure Ctx where
  target_pid : Int
  current : task_struct
  umem : UserMem
  kmem : Nat → pt_regs
  stack : Nat → Nat

/-- The uninitialised local `char kbuf[MAX_PATH_LEN]`. -/
def Ctx.kbuf (c : Ctx) : List Nat :=
  (List.range MAX_PATH_LEN).map c.stack

/-- The three values a handler extracts from the intercepted call. -/
structure OpenatArgs where
  dfd : Int
  filename : Nat
  flags : Nat
  deriving DecidableEq

/-- Lines 59-62 of trace_openat.c: the indirected extraction. `regs->regs[0]`
points to the saved user register block, whose registers 0, 1, 2 are read. -/
def trace_openat_handler_args (kmem : Nat → pt_regs) (regs : pt_regs) : OpenatArgs :=
  let user_regs := kmem (regs.regs 0)
  { dfd := int_cast (user_regs.regs 0)
    filename := user_regs.regs 1
    flags := user_regs.regs 2 }

/-- Lines 103-105 of trace_openat_ftrace.c: the direct extraction through
`ftrace_regs_get_argument`. -/
def trace_openat_ftrace_callback_args (fregs : ftrace_regs) : OpenatArgs :=
  { dfd := int_cast (ftrace_regs_get_argument fregs 0)
    filename := ftrace_regs_get_argument fregs 1
    flags := ftrace_regs_get_argument fregs 2 }

/-- The kprobe pre-handler `trace_openat_handler`: its return value and the
host calls it makes, in order. -/
def trace_openat_handler (c : Ctx) (regs : pt_regs) : Int × List Call :=
  if c.target_pid > 0 ∧ c.current.pid ≠ c.target_pid then (0, [])
  else
    let a := trace_openat_handler_args c.kmem regs
    let r := strncpy_from_user c.umem c.kbuf a.filename (MAX_PATH_LEN - 1)
    if r.1 < 0 then (0, [Call.strncpy_from_user a.filename (MAX_PATH_LEN - 1)])
    else
      let kbuf := r.2.set r.1.toNat 0
      (0, [Call.strncpy_from_user a.filename (MAX_PATH_LEN - 1),
           Call.printk (LogLine.trace
             { pid := c.current.pid, comm := c.current.comm, dfd := a.dfd,
               path := cstr kbuf, flags := a.flags })])

/-- The ftrace callback `trace_openat_ftrace_callback` (a `void` function): the
host calls it makes, in order. -/
def trace_openat_ftrace_callback (c : Ctx) (fregs : ftrace_regs) : List Call :=
  if c.target_pid > 0 ∧ c.current.pid ≠ c.target_pid then []
  else
    let a := trace_openat_ftrace_callback_args fregs
    if a.filename = 0 then []
    else
      let r := strncpy_from_user c.umem c.kbuf a.filename (MAX_PATH_LEN - 1)
      if r.1 < 0 then [Call.strncpy_from_user a.filename (MAX_PATH_LEN - 1)]
      else
        let kbuf := r.2.set r.1.toNat 0
        [Call.strncpy_from_user a.filename (MAX_PATH_LEN - 1),
         Call.printk (LogLine.trace
           { pid := c.current.pid, comm := c.current.comm, dfd := a.dfd,
             path := cstr kbuf, flags := a.flags })]

/-- The trace events among a list of host calls. -/
def events : List Call → List TraceEvent
  | [] => []
  | Call.printk (LogLine.trace e) :: cs => e :: events cs
  | _ :: cs => events cs

/-! ## The host: kprobes and ftrace -/

/-- A negative status code of the kernel (`-errno`). -/
abbrev Errno := {e : Int // e < 0}

/-- An address the kernel bound a symbol to: never the null pointer. -/
abbrev KAddr := {a : Nat // a ≠ 0}

/-- The fields of `struct kprobe` the modules use; `addr = 0` is the null pointer. -/
structure kprobe where
  symbol_name : String
  addr : Nat
  deriving DecidableEq

/-- The host kernel as the modules meet it. The first three fields say how it
answers an attach of a probe to a symbol, the insertion of an address into the
filter of `trace_ops`, and the registration of `trace_ops`; the others are what
it currently holds (attached probes by symbol, the filter of `trace_ops`,
whether `trace_ops` is registered) and the calls received so far. -/
structure Host where
  bind : String → Except Errno KAddr
  filter_add : Nat → Option Errno
  ftrace_reg : Option Errno
  kprobes : List String
  filter : List Nat
  registered : Bool
  calls : List Call

/-- Modelled from the spec: `register_kprobe` of the host kernel (absent from
the repository). The host either binds the symbol, attaches the probe, fills in
`addr` and returns 0, or rejects with a negative status and leaves the probe
untouched (the address is exposed only after a successful attach). -/
def register_kprobe (h : Host) (kp : kprobe) : Int × kprobe × Host :=
  match h.bind kp.symbol_name with
  | .error e =>
    (e.val, kp, { h with calls := h.calls ++ [Call.register_kprobe kp.symbol_name e.val] })
  | .ok a =>
    (0, { kp with addr := a.val },
      { h with kprobes := kp.symbol_name :: h.kprobes
               calls := h.calls ++ [Call.register_kprobe kp.symbol_name 0] })

/-- Modelled from the spec: `unregister_kprobe` of the host kernel (absent from
the repository): detaches the probe if it is attached. Detach is idempotent per
point, and it leaves the `struct kprobe`, its `addr` included, as it is. -/
def unregister_kprobe (h : Host) (kp : kprobe) : Host :=
  { h with kprobes := h.kprobes.erase kp.symbol_name
           calls := h.calls ++ [Call.unregister_kprobe kp.symbol_name] }

/-- Modelled from the spec: `ftrace_set_filter_ip(&trace_ops, ip, remove, 0)` of
the host kernel (absent from the repository). With `remove = 0` the host either
adds `ip` to the filter and returns 0 or rejects with a negative status and adds
nothing; with `remove = 1` it takes `ip` out of the filter. -/
def ftrace_set_filter_ip (h : Host) (ip : Nat) (remove : Bool) : Int × Host :=
  if remove then
    (0, { h with filter := h.filter.erase ip
                 calls := h.calls ++ [Call.ftrace_set_filter_ip ip true 0] })
  else
    match h.filter_add ip with
    | some e => (e.val, { h with calls := h.calls ++ [Call.ftrace_set_filter_ip ip false e.val] })
    | none =>
      (0, { h with filter := ip :: h.filter
                   calls := h.calls ++ [Call.ftrace_set_filter_ip ip false 0] })

/-- Modelled from the spec: `register_ftrace_function(&trace_ops)` of the host
kernel (absent from the repository): registers the callback and returns 0, or
rejects with a negative status and registers nothing. -/
def register_ftrace_function (h : Host) : Int × Host :=
  match h.ftrace_reg with
  | some e => (e.val, { h with calls := h.calls ++ [Call.register_ftrace_function e.val] })
  | none =>
    (0, { h with registered := true
                 calls := h.calls ++ [Call.register_ftrace_function 0] })

/-- Modelled from the spec: `unregister_ftrace_function(&trace_ops)` of the host
kernel (absent from the repository): afterwards the callback is not registered. -/
def unregister_ftrace_function (h : Host) : Host :=
  { h with registered := false
           calls := h.calls ++ [Call.unregister_ftrace_function] }

/-- The host side of `pr_err` / `pr_warn` / `pr_info`: one more line in the log. -/
def printk (h : Host) (line : LogLine) : Host :=
  { h with calls := h.calls ++ [Call.printk line] }

/-! ## The probe backend: trace_openat.c -/

/-- The globals of trace_openat.c. -/
structure ProbeModule where
  target_pid : Int
  kp_openat : kprobe
  kp_openat2 : kprobe
  deriving DecidableEq

/-- The globals as the static initialisers leave them when the module is loaded
with the parameter `target_pid`. -/
def ProbeModule.load (target_pid : Int) : ProbeModule :=
  { target_pid := target_pid
    kp_openat := { symbol_name := "__arm64_sys_openat", addr := 0 }
    kp_openat2 := { symbol_name := "__arm64_sys_openat2", addr := 0 } }

/-- The module entry point `trace_openat_init` (enable of the probe backend):
its return value, the globals and the host afterwards. -/
def trace_openat_init (m : ProbeModule) (h : Host) : Int × ProbeModule × Host :=
  let r1 := register_kprobe h m.kp_openat
  let m1 := { m with kp_openat := r1.2.1 }
  if r1.1 < 0 then
    (r1.1, m1, printk r1.2.2 (LogLine.kprobe_fatal m1.kp_openat.symbol_name r1.1))
  else
    let r2 := register_kprobe r1.2.2 m1.kp_openat2
    let m2 := { m1 with kp_openat2 := r2.2.1 }
    let h2 := if r2.1 < 0 then printk r2.2.2 (LogLine.openat2_failed r2.1) else r2.2.2
    let h3 := printk h2 (LogLine.kprobes_registered (m2.kp_openat2.addr != 0))
    let h4 := if m2.target_pid > 0 then printk h3 (LogLine.filtering m2.target_pid)
              else printk h3 LogLine.logging_all
    (0, m2, h4)

/-- The module exit point `trace_openat_exit` (disable of the probe backend). -/
def trace_openat_exit (m : ProbeModule) (h : Host) : ProbeModule × Host :=
  let h1 := if m.kp_openat2.addr != 0 then unregister_kprobe h m.kp_openat2 else h
  let h2 := if m.kp_openat.addr != 0 then unregister_kprobe h1 m.kp_openat else h1
  (m, printk h2 LogLine.kprobes_unregistered)

/-! ## The patch backend: trace_openat_ftrace.c -/

/-- The globals of trace_openat_ftrace.c (`trace_ops` lives in the host). -/
structure FtraceModule where
  target_pid : Int
  target_func_addr : Nat
  deriving DecidableEq

/-- The globals when the module is loaded with the parameter `target_pid`. -/
def FtraceModule.load (target_pid : Int) : FtraceModule :=
  { target_pid := target_pid, target_func_addr := 0 }

/-- The symbol resolver `kprobe_lookup`: the address found (0 when not found)
and the host afterwards. -/
def kprobe_lookup (h : Host) (name : String) : Nat × Host :=
  let kp : kprobe := { symbol_name := name, addr := 0 }
  let r := register_kprobe h kp
  if r.1 < 0 then (0, r.2.2)
  else
    let addr := r.2.1.addr
    (addr, unregister_kprobe r.2.2 r.2.1)

/-- The module entry point `trace_openat_ftrace_init` (enable of the patch
backend): its return value, the globals and the host afterwards. -/
def trace_openat_ftrace_init (m : FtraceModule) (h : Host) : Int × FtraceModule × Host :=
  let r0 := kprobe_lookup h "do_sys_openat2"
  let m1 := { m with target_func_addr := r0.1 }
  if m1.target_func_addr = 0 then
    (-ENOENT, m1, printk r0.2 LogLine.symbol_not_found)
  else
    let h1 := printk r0.2 (LogLine.symbol_found m1.target_func_addr)
    let r2 := ftrace_set_filter_ip h1 m1.target_func_addr false
    if r2.1 ≠ 0 then
      (r2.1, m1, printk r2.2 (LogLine.filter_failed r2.1))
    else
      let r3 := register_ftrace_function r2.2
      if r3.1 ≠ 0 then
        let h3 := printk r3.2 (LogLine.register_failed r3.1)
        (r3.1, m1, (ftrace_set_filter_ip h3 m1.target_func_addr true).2)
      else
        let h3 := printk r3.2 LogLine.hook_registered
        let h4 := if m1.target_pid > 0 then printk h3 (LogLine.filtering m1.target_pid)
                  else printk h3 LogLine.logging_all
        (0, m1, h4)

/-- The module exit point `trace_openat_ftrace_cleanup` (disable of the patch
backend). -/
def trace_openat_ftrace_cleanup (m : FtraceModule) (h : Host) : FtraceModule × Host :=
  let h1 := unregister_ftrace_function h
  let h2 := (ftrace_set_filter_ip h1 m.target_func_addr true).2
  (m, printk h2 LogLine.hook_removed)

/-! ## Reading the call log -/

/-- The calls a host received after an earlier state `h`. -/
def calls_since (h after : Host) : List Call :=
  after.calls.drop h.calls.length

/-- A resource the host holds for a module. -/
inductive Resource
  | probe (sym : String)
  | filter_entry (ip : Nat)
  | callback
  deriving DecidableEq

/-- The resource a call acquired, if it is a successful acquire. -/
def acquired : Call → Option Resource
  | Call.register_kprobe sym ret => if ret = 0 then some (Resource.probe sym) else none
  | Call.ftrace_set_filter_ip ip false ret =>
    if ret = 0 then some (Resource.filter_entry ip) else none
  | Call.register_ftrace_function ret => if ret = 0 then some Resource.callback else none
  | _ => none

/-- The resource a call releases, if it is a release. -/
def released : Call → Option Resource
  | Call.unregister_kprobe sym => some (Resource.probe sym)
  | Call.ftrace_set_filter_ip ip true _ => some (Resource.filter_entry ip)
  | Call.unregister_ftrace_function => some Resource.callback
  | _ => none

/-- The resources still held after a sequence of calls, in order of
acquisition, starting from the resources `held0`. -/
def held_after : List Resource → List Call → List Resource
  | held0, [] => held0
  | held0, c :: cs =>
    match acquired c, released c with
    | some r, _ => held_after (held0 ++ [r]) cs
    | none, some r => held_after (held0.erase r) cs
    | none, none => held_after held0 cs

/-- The buffer `kbuf` when the trace line is printed (lines 73-77 of
trace_openat.c, 118-122 of trace_openat_ftrace.c): the read, then the terminator
stored at index `len`. -/
def kbuf_at_print (c : Ctx) (ptr : Nat) : List Nat :=
  (strncpy_from_user c.umem c.kbuf ptr (MAX_PATH_LEN - 1)).2.set
    (strncpy_from_user c.umem c.kbuf ptr (MAX_PATH_LEN - 1)).1.toNat 0

/-- The filter test both handlers start with: true when the call is skipped. -/
def filtered_out (c : Ctx) : Prop :=
  c.target_pid > 0 ∧ c.current.pid ≠ c.target_pid

/-- The extraction as the specification words it, for comparison with the two
handlers: of an argument block `A`, slot 0 as a signed 32-bit integer (dirfd),
slot 1 (path pointer) and slot 2 (raw flags word). -/
def extract_spec (A : Nat → Nat) : OpenatArgs :=
  { dfd := int_cast (A 0), filename := A 1, flags := A 2 }

/-! ## Concrete scenarios -/

/-- The bytes of an ASCII string. -/
def bytes (s : String) : List Nat :=
  s.toList.map Char.toNat

/-- User memory that holds the string `s` and its terminator at `base` and
nothing else. -/
def mem_with (base : Nat) (s : List Nat) : UserMem :=
  fun a =>
    if a < base then none
    else if a - base < s.length then some (s.getD (a - base) 0)
    else if a - base = s.length then some 0
    else none

/-- The argument block of `openat(AT_FDCWD, path, 0)`: dfd -100 as a 64-bit
register value, the path pointer, flags 0. -/
def args_at (ptr : Nat) : Nat → Nat :=
  fun i => [2 ^ 64 - 100, ptr, 0].getD i 0

/-- Kernel memory with the saved user registers `A` at address 512. -/
def kmem_with (A : Nat → Nat) : Nat → pt_regs :=
  fun p => if p = 512 then { regs := A } else { regs := fun _ => 0 }

/-- The register block a kprobe handler receives: register 0 points to 512. -/
def outer_regs : pt_regs :=
  { regs := fun i => if i = 0 then 512 else 0 }

/-- A call by pid 99 ("cat") of `openat(AT_FDCWD, ptr, 0)` with the string `s`
stored at `ptr`, under the filter `target`. -/
def scenario (target : Int) (ptr : Nat) (s : List Nat) : Ctx :=
  { target_pid := target
    current := { pid := 99, comm := "cat" }
    umem := mem_with ptr s
    kmem := kmem_with (args_at ptr)
    stack := fun _ => 170 }

/-- A call like `scenario`, but every page of the caller is non-resident. -/
def scenario_fault (target : Int) (ptr : Nat) : Ctx :=
  { target_pid := target
    current := { pid := 99, comm := "cat" }
    umem := fun _ => none
    kmem := kmem_with (args_at ptr)
    stack := fun _ => 170 }

/-! ## Lifecycle runs and concrete hosts -/

/-- Whether the host would accept a probe on `sym`. -/
def attach_ok (h : Host) (sym : String) : Bool :=
  match h.bind sym with
  | .ok _ => true
  | .error _ => false

/-- The host holds nothing for the module: the state before enable. -/
def Host.idle (h : Host) : Prop :=
  h.kprobes = [] ∧ h.filter = [] ∧ h.registered = false

/-- Enable of the probe backend, on a freshly loaded module. -/
def probe_enabled (p : Int) (h : Host) : Int × ProbeModule × Host :=
  trace_openat_init (ProbeModule.load p) h

/-- Enable, then disable, of the probe backend. -/
def probe_disabled (p : Int) (h : Host) : ProbeModule × Host :=
  trace_openat_exit (probe_enabled p h).2.1 (probe_enabled p h).2.2

/-- Enable of the patch backend, on a freshly loaded module. -/
def patch_enabled (p : Int) (h : Host) : Int × FtraceModule × Host :=
  trace_openat_ftrace_init (FtraceModule.load p) h

/-- Enable, then disable, of the patch backend. -/
def patch_disabled (p : Int) (h : Host) : FtraceModule × Host :=
  trace_openat_ftrace_cleanup (patch_enabled p h).2.1 (patch_enabled p h).2.2

/-- A host that holds nothing and has received no call, with the given answers. -/
def Host.fresh (bind : String → Except Errno KAddr) (filter_add : Nat → Option Errno)
    (ftrace_reg : Option Errno) : Host :=
  { bind := bind, filter_add := filter_add, ftrace_reg := ftrace_reg
    kprobes := [], filter := [], registered := false, calls := [] }

/-- Every symbol resolves, to address 4096. -/
def bind_all : String → Except Errno KAddr :=
  fun _ => .ok ⟨4096, by decide⟩

/-- Only `__arm64_sys_openat` resolves; any other attach fails with -ENOENT. -/
def bind_base_only : String → Except Errno KAddr :=
  fun s => if s = "__arm64_sys_openat" then .ok ⟨4096, by decide⟩ else .error ⟨-2, by decide⟩

/-- No symbol resolves: every attach fails with -ENOENT. -/
def bind_none : String → Except Errno KAddr :=
  fun _ => .error ⟨-2, by decide⟩

/-- A host on which every request succeeds. -/
def host_ok : Host :=
  Host.fresh bind_all (fun _ => none) none

/-- A host on which the extended probe cannot be attached. -/
def host_base_only : Host :=
  Host.fresh bind_base_only (fun _ => none) none

/-- A host on which no probe can be attached. -/
def host_no_symbol : Host :=
  Host.fresh bind_none (fun _ => none) none

/-- A host that rejects the registration of `trace_ops` with -EBUSY. -/
def host_reg_rejected : Host :=
  Host.fresh bind_all (fun _ => none) (some ⟨-16, by decide⟩)

end TraceOpenat

namespace Promote

/-! ## The promote device: promote.c -/

/-- The size of the on-stack text buffer: `#define PID_BUF_LEN 32`. -/
def PID_BUF_LEN : Nat := 32

/-- The errno behind `-EFAULT`. -/
def EFAULT : Int := 14

/-- The errno behind `-EINVAL`. -/
def EINVAL : Int := 22

/-- The errno behind `-ERANGE`. -/
def ERANGE : Int := 34

/-- The errno behind `-ENOMEM`. -/
def ENOMEM : Int := 12

/-- The errno behind `-ESRCH`. -/
def ESRCH : Int := 3

/-- The user id of root, `GLOBAL_ROOT_UID`. -/
def GLOBAL_ROOT_UID : Nat := 0

/-- The group id of root, `GLOBAL_ROOT_GID`. -/
def GLOBAL_ROOT_GID : Nat := 0

/-- The fields of `struct cred` the module writes, and `rest` for everything
else in the structure (capability sets, keyrings, ...), which it never writes. -/
structure cred where
  uid : Nat
  euid : Nat
  suid : Nat
  fsuid : Nat
  gid : Nat
  egid : Nat
  sgid : Nat
  fsgid : Nat
  rest : Nat
  deriving DecidableEq

/-- The fields of `struct task_struct` the module reads or writes. -/
structure task_struct where
  pid : Int
  comm : String
  real_cred : cred
  cred : cred
  deriving DecidableEq

/-- The kernel log lines of `promote_write`, one constructor per `pr_info`. -/
inductive LogLine
  /-- Line "promote: invalid PID '%s' from PID %d (%s)". -/
  | invalid_pid (text : List Nat) (pid : Int) (comm : String)
  /-- Line "promote: PID %d (%s) requests promotion of PID %d". -/
  | requests (pid : Int) (comm : String) (target : Int)
  /-- Line "promote: PID %d promoted to root (self, via commit_creds)". -/
  | promoted_self (target : Int)
  /-- Line "promote: PID %d not found". -/
  | not_found (target : Int)
  /-- Line "promote: PID %d promoted to root (remote, via direct cred swap)". -/
  | promoted_remote (target : Int)
  deriving DecidableEq

/-- One call of the module into the kernel, in the order made. Reference counts
and RCU sections (`get_task_struct`, `get_cred`, `put_cred`, `rcu_read_lock`, ...)
are not modelled. -/
inductive Call
  | copy_from_user (src : Nat) (n : Nat) (ret : Nat)
  | kstrtoint (text : List Nat)
  | prepare_creds (ok : Bool)
  | commit_creds (new : cred)
  | pid_task (pid : Int) (found : Bool)
  | prepare_kernel_cred (ok : Bool)
  | assign_creds (pid : Int) (new : cred)
  | printk (line : LogLine)
  deriving DecidableEq

/-- The kernel as `promote_write` meets it: the calling task `current`, the other
tasks by pid, user memory, the stale stack contents that become `kbuf`, whether
the next credential allocations succeed, and the calls received so far. -/
structure Kernel where
  current : task_struct
  others : Int → Option task_struct
  umem : TraceOpenat.UserMem
  stack : Nat → Nat
  prepare_creds_ok : Bool
  prepare_kernel_cred_ok : Bool
  calls : List Call

/-- The credentials of `init_task`, which `prepare_kernel_cred(NULL)` copies: all
ids 0 and the full capability set. -/
def init_cred : cred :=
  { uid := 0, euid := 0, suid := 0, fsuid := 0, gid := 0, egid := 0, sgid := 0, fsgid := 0
    rest := 2 ^ 41 - 1 }

/-- Adds a call to the log of the kernel. -/
def Kernel.log (k : Kernel) (c : Call) : Kernel :=
  { k with calls := k.calls ++ [c] }

/-- The lookup `pid_task(find_vpid(pid), PIDTYPE_PID)`: the task with that pid. -/
def pid_task (k : Kernel) (pid : Int) : Option task_struct :=
  if pid = k.current.pid then some k.current else k.others pid

/-- The copy loop of `copy_from_user`: `i` bytes are in `dst`, `n` remain. Answers
the number of bytes that could not be copied and the buffer. -/
def copy_loop (umem : TraceOpenat.UserMem) (src : Nat) : Nat → Nat → List Nat → Nat × List Nat
  | 0, _, dst => (0, dst)
  | n + 1, i, dst =>
    match umem (src + i) with
    | none => (n + 1, dst)
    | some b => copy_loop umem src n (i + 1) (dst.set i b)

/-- The kernel primitive `copy_from_user(dst, src, n)` (not part of the
repository), after its documented contract: it copies `n` bytes from user memory
and returns the number of bytes it could not copy, 0 on success. -/
def copy_from_user (umem : TraceOpenat.UserMem) (dst : List Nat) (src n : Nat) :
    Nat × List Nat :=
  copy_loop umem src n 0 dst

/-- Whether a character is a decimal digit. -/
def is_digit (ch : Nat) : Bool :=
  48 ≤ ch && ch ≤ 57

/-- The digit scan of the kernel parser in base 10: the value of the leading run
of decimal digits and the number of characters in it. -/
def parse_integer (s : List Nat) : Nat × Nat :=
  ((s.takeWhile is_digit).foldl (fun acc ch => acc * 10 + (ch - 48)) 0,
   (s.takeWhile is_digit).length)

/-- The unsigned parser of the kernel in base 10: at least one digit, a value
below 2^64, then at most one newline, then the end of the string. -/
def kstrtoull (s : List Nat) : Except Int Nat :=
  if (parse_integer s).1 ≥ 2 ^ 64 then .error (-ERANGE)
  else if (parse_integer s).2 = 0 then .error (-EINVAL)
  else
    let rest := s.drop (parse_integer s).2
    let rest := if rest.head? = some 10 then rest.tail else rest
    if rest ≠ [] then .error (-EINVAL) else .ok (parse_integer s).1

/-- The signed 64-bit parser of the kernel in base 10: an optional sign, then
`kstrtoull`, then the range check of `long long`. -/
def kstrtoll (s : List Nat) : Except Int Int :=
  if s.head? = some 45 then
    match kstrtoull s.tail with
    | .error e => .error e
    | .ok tmp => if tmp > 2 ^ 63 then .error (-ERANGE) else .ok (-(tmp : Int))
  else
    match kstrtoull (if s.head? = some 43 then s.tail else s) with
    | .error e => .error e
    | .ok tmp => if tmp ≥ 2 ^ 63 then .error (-ERANGE) else .ok (tmp : Int)

/-- The kernel primitive `kstrtoint(s, 10, &res)` (lib/kstrtox.c, not part of the
repository), after its documented contract: it parses the C string held by the
buffer `s` as a decimal integer with an optional sign and an optional final
newline, and answers the value, or `-EINVAL` for a malformed string and `-ERANGE`
for a value outside `int`. -/
def kstrtoint (s : List Nat) : Except Int Int :=
  match kstrtoll (TraceOpenat.cstr s) with
  | .error e => .error e
  | .ok tmp => if tmp < -(2 ^ 31) ∨ tmp ≥ 2 ^ 31 then .error (-ERANGE) else .ok tmp

/-- The conversion of a `size_t` to the `ssize_t` return value: the 64 bits read
as a two's complement number. -/
def ssize_cast (x : Nat) : Int :=
  if x % 2 ^ 64 < 2 ^ 63 then ((x % 2 ^ 64 : Nat) : Int)
  else ((x % 2 ^ 64 : Nat) : Int) - 2 ^ 64

/-- The function `promote_self`: its return value and the kernel afterwards.
`prepare_creds` copies the credentials of `current`, and `commit_creds` installs
the modified copy as both `real_cred` and `cred` of `current`. -/
def promote_self (k : Kernel) : Int × Kernel :=
  if k.prepare_creds_ok = false then
    (-ENOMEM, k.log (Call.prepare_creds false))
  else
    let new_cred : cred :=
      { k.current.cred with
        uid := GLOBAL_ROOT_UID, euid := GLOBAL_ROOT_UID, suid := GLOBAL_ROOT_UID
        fsuid := GLOBAL_ROOT_UID
        gid := GLOBAL_ROOT_GID, egid := GLOBAL_ROOT_GID, sgid := GLOBAL_ROOT_GID
        fsgid := GLOBAL_ROOT_GID }
    let k1 := k.log (Call.prepare_creds true)
    let k2 := { k1 with current := { k1.current with real_cred := new_cred, cred := new_cred } }
    (0, k2.log (Call.commit_creds new_cred))

/-- The function `promote_remote`: its return value and the kernel afterwards. -/
def promote_remote (k : Kernel) (target_pid : Int) : Int × Kernel :=
  match pid_task k target_pid with
  | none => (-ESRCH, k.log (Call.pid_task target_pid false))
  | some task =>
    let k1 := k.log (Call.pid_task target_pid true)
    if k1.prepare_kernel_cred_ok = false then
      (-ENOMEM, k1.log (Call.prepare_kernel_cred false))
    else
      let new_cred := init_cred
      let k2 := k1.log (Call.prepare_kernel_cred true)
      let task1 := { task with real_cred := new_cred, cred := new_cred }
      let k3 : Kernel :=
        if target_pid = k2.current.pid then { k2 with current := task1 }
        else { k2 with others := fun p => if p = target_pid then some task1 else k2.others p }
      (0, k3.log (Call.assign_creds target_pid new_cred))

/-- The uninitialised local `char kbuf[PID_BUF_LEN]` of `promote_write`. -/
def Kernel.kbuf (k : Kernel) : List Nat :=
  (List.range PID_BUF_LEN).map k.stack

/-- Lines 174-178 of promote.c: the terminator stored at `kbuf[len]`, and a
newline in the last of the `len` bytes replaced by a terminator. -/
def terminate_and_strip (kbuf : List Nat) (len : Nat) : List Nat :=
  let kbuf1 := kbuf.set len 0
  if len > 0 ∧ kbuf1.getD (len - 1) 0 = 10 then kbuf1.set (len - 1) 0 else kbuf1

/-- The write handler `promote_write(file, buf, count, ppos)`: its return value
and the kernel afterwards. -/
def promote_write (k : Kernel) (buf count : Nat) : Int × Kernel :=
  let len := min count (PID_BUF_LEN - 1)
  let r := copy_from_user k.umem k.kbuf buf len
  let k0 := k.log (Call.copy_from_user buf len r.1)
  if r.1 ≠ 0 then (-EFAULT, k0)
  else
    let kbuf2 := terminate_and_strip r.2 len
    let k1 := k0.log (Call.kstrtoint (TraceOpenat.cstr kbuf2))
    match kstrtoint kbuf2 with
    | .error _ =>
      (-EINVAL, k1.log (Call.printk
        (LogLine.invalid_pid (TraceOpenat.cstr kbuf2) k1.current.pid k1.current.comm)))
    | .ok target_pid =>
      if target_pid ≤ 0 then (-EINVAL, k1)
      else
        let k2 := k1.log (Call.printk
          (LogLine.requests k1.current.pid k1.current.comm target_pid))
        if target_pid = k2.current.pid then
          let rs := promote_self k2
          if rs.1 ≠ 0 then (rs.1, rs.2)
          else (ssize_cast count, rs.2.log (Call.printk (LogLine.promoted_self target_pid)))
        else
          let rr := promote_remote k2 target_pid
          if rr.1 = -ESRCH then
            (rr.1, rr.2.log (Call.printk (LogLine.not_found target_pid)))
          else if rr.1 ≠ 0 then (rr.1, rr.2)
          else (ssize_cast count, rr.2.log (Call.printk (LogLine.promoted_remote target_pid)))

/-! ## The specification side of promote_write -/

/-- The `n` bytes stored at `src`, when all of them can be read. -/
def read_exact (umem : TraceOpenat.UserMem) : Nat → Nat → Option (List Nat)
  | _, 0 => some []
  | src, n + 1 =>
    match umem src with
    | none => none
    | some b => (read_exact umem (src + 1) n).map (fun s => b :: s)

/-- The bytes of a write that the handler looks at: the first
min(count, PID_BUF_LEN - 1) bytes of the buffer, when they can be read. -/
def written_bytes (k : Kernel) (buf count : Nat) : Option (List Nat) :=
  read_exact k.umem buf (min count (PID_BUF_LEN - 1))

/-- One trailing newline stripped. -/
def strip_newline (bs : List Nat) : List Nat :=
  if bs.getLast? = some 10 then bs.dropLast else bs

/-- The pid a text asks to promote: the value it parses to after one trailing
newline is stripped, when it parses as a decimal integer greater than 0. -/
def requested_pid (bs : List Nat) : Option Int :=
  match kstrtoint (strip_newline bs) with
  | .error _ => none
  | .ok v => if 0 < v then some v else none

/-- Whether a call starts a promotion: the first kernel call of `promote_self`
(`prepare_creds`) or of `promote_remote` (`pid_task`). -/
def Call.is_attempt : Call → Bool
  | Call.prepare_creds _ => true
  | Call.pid_task _ _ => true
  | _ => false

/-- The calls a kernel received after an earlier state `k`. -/
def calls_since (k after : Kernel) : List Call :=
  after.calls.drop k.calls.length

/-- A caller with pid 1000 ("sh", uid and gid 1000), another task with pid 77, and
the text `text` in user memory at address 4096. -/
def kernel_with (text : List Nat) : Kernel :=
  { current :=
      { pid := 1000, comm := "sh"
        real_cred := { uid := 1000, euid := 1000, suid := 1000, fsuid := 1000, gid := 1000
                       egid := 1000, sgid := 1000, fsgid := 1000, rest := 0 }
        cred := { uid := 1000, euid := 1000, suid := 1000, fsuid := 1000, gid := 1000
                  egid := 1000, sgid := 1000, fsgid := 1000, rest := 0 } }
    others := fun p =>
      if p = 77 then
        some { pid := 77, comm := "sleep"
               real_cred := { uid := 1000, euid := 1000, suid := 1000, fsuid := 1000
                              gid := 1000, egid := 1000, sgid := 1000, fsgid := 1000, rest := 0 }
               cred := { uid := 1000, euid := 1000, suid := 1000, fsuid := 1000, gid := 1000
                         egid := 1000, sgid := 1000, fsgid := 1000, rest := 0 } }
      else none
    umem := fun a =>
      if a < 4096 then none
      else if a - 4096 < text.length then some (text.getD (a - 4096) 0)
      else none
    stack := fun _ => 170
    prepare_creds_ok := true
    prepare_kernel_cred_ok := true
    calls := [] }

end Promote

namespace TraceOpenat

/-! ## Lemmas on the string read -/

theorem read_bounded_length (umem : UserMem) :
    ∀ (n src : Nat) (s : List Nat), read_bounded umem src n = some s → s.length ≤ n := by
  intro n
  induction n with
  | zero =>
    intro src s h
    simp [read_bounded] at h
    subst h
    simp
  | succ n ih =>
    intro src s h
    unfold read_bounded at h
    cases hb : umem src with
    | none => simp [hb] at h
    | some b =>
      simp only [hb] at h
      by_cases hz : b = 0
      · simp [hz] at h
        subst h
        simp
      · simp only [hz, if_false] at h
        cases hr : read_bounded umem (src + 1) n with
        | none => simp [hr] at h
        | some t =>
          simp [hr] at h
          have := ih (src + 1) t hr
          simp [← h]
          omega

theorem read_bounded_nonzero (umem : UserMem) :
    ∀ (n src : Nat) (s : List Nat), read_bounded umem src n = some s → ∀ b ∈ s, b ≠ 0 := by
  intro n
  induction n with
  | zero =>
    intro src s h
    simp [read_bounded] at h
    subst h
    simp
  | succ n ih =>
    intro src s h
    unfold read_bounded at h
    cases hb : umem src with
    | none => simp [hb] at h
    | some b =>
      simp only [hb] at h
      by_cases hz : b = 0
      · simp [hz] at h
        subst h
        simp
      · simp only [hz, if_false] at h
        cases hr : read_bounded umem (src + 1) n with
        | none => simp [hr] at h
        | some t =>
          simp [hr] at h
          have := ih (src + 1) t hr
          intro x hx
          rw [← h] at hx
          rcases List.mem_cons.mp hx with rfl | hx
          · exact hz
          · exact this x hx

theorem strncpy_loop_fault (umem : UserMem) (src : Nat) :
    ∀ (n i : Nat) (dst : List Nat), read_bounded umem (src + i) n = none →
      (strncpy_loop umem src n i dst).1 = -EFAULT := by
  intro n
  induction n with
  | zero =>
    intro i dst h
    simp [read_bounded] at h
  | succ n ih =>
    intro i dst h
    unfold read_bounded at h
    unfold strncpy_loop
    cases hb : umem (src + i) with
    | none => simp
    | some b =>
      simp only [hb] at h
      by_cases hz : b = 0
      · simp [hz] at h
      · simp only [hz, if_false] at h ⊢
        cases hr : read_bounded umem (src + i + 1) n with
        | none => exact ih (i + 1) (dst.set i b) (by rw [← hr]; rfl)
        | some t => simp [hr] at h

theorem strncpy_loop_ok (umem : UserMem) (src : Nat) :
    ∀ (n i : Nat) (dst s : List Nat), read_bounded umem (src + i) n = some s →
      i + n ≤ dst.length →
      (strncpy_loop umem src n i dst).1 = ((i + s.length : Nat) : Int) ∧
      (strncpy_loop umem src n i dst).2.length = dst.length ∧
      (strncpy_loop umem src n i dst).2.take (i + s.length) = dst.take i ++ s := by
  intro n
  induction n with
  | zero =>
    intro i dst s h hlen
    simp [read_bounded] at h
    subst h
    simp [strncpy_loop]
  | succ n ih =>
    intro i dst s h hlen
    unfold read_bounded at h
    unfold strncpy_loop
    cases hb : umem (src + i) with
    | none => simp [hb] at h
    | some b =>
      simp only [hb] at h
      by_cases hz : b = 0
      · simp [hz] at h
        subst h
        have hs : (List.take i dst).set i 0 = List.take i dst :=
          List.set_eq_of_length_le (by simp)
        simp [hz, List.set_take, hs]
      · simp only [hz, if_false] at h ⊢
        cases hr : read_bounded umem (src + i + 1) n with
        | none => simp [hr] at h
        | some t =>
          simp [hr] at h
          subst h
          have hi : i < dst.length := by omega
          obtain ⟨h1, h2, h3⟩ := ih (i + 1) (dst.set i b) t (by rw [← hr]; rfl)
            (by simp; omega)
          refine ⟨?_, ?_, ?_⟩
          · rw [h1]; simp; omega
          · rw [h2]; simp
          · have e : i + (b :: t).length = i + 1 + t.length := by simp; omega
            rw [e, h3]
            have : (dst.set i b).take (i + 1) = dst.take i ++ [b] := by
              have hs : (List.take i dst).set i b = List.take i dst :=
                List.set_eq_of_length_le (by simp)
              rw [List.take_succ]
              simp [List.set_take, hi, hs]
            rw [this]
            simp

theorem cstr_set_zero (buf : List Nat) (k : Nat) (hk : k < buf.length)
    (hnz : ∀ b ∈ buf.take k, b ≠ 0) : cstr (buf.set k 0) = buf.take k := by
  unfold cstr
  rw [List.set_eq_take_append_cons_drop]
  simp only [hk, if_true]
  rw [List.takeWhile_append_of_pos]
  · simp
  · intro a ha
    simpa using hnz a ha

theorem read_bounded_of_string_at (umem : UserMem) :
    ∀ (n ptr : Nat) (s : List Nat), string_at umem ptr s = true →
      read_bounded umem ptr n = some (s.take n) := by
  intro n
  induction n with
  | zero => intro ptr s _; simp [read_bounded]
  | succ n ih =>
    intro ptr s h
    cases s with
    | nil =>
      simp [string_at] at h
      simp [read_bounded, h]
    | cons b t =>
      simp [string_at] at h
      obtain ⟨⟨hb, hm⟩, ht⟩ := h
      simp [read_bounded, hm, hb, ih (ptr + 1) t ht]

theorem kbuf_length (c : Ctx) : c.kbuf.length = MAX_PATH_LEN := by
  simp [Ctx.kbuf]

theorem strncpy_from_user_fault (c : Ctx) (ptr : Nat)
    (h : read_bounded c.umem ptr (MAX_PATH_LEN - 1) = none) :
    (strncpy_from_user c.umem c.kbuf ptr (MAX_PATH_LEN - 1)).1 < 0 := by
  unfold strncpy_from_user
  rw [strncpy_loop_fault c.umem ptr (MAX_PATH_LEN - 1) 0 c.kbuf (by simpa using h)]
  decide

theorem strncpy_from_user_ok (c : Ctx) (ptr : Nat) (s : List Nat)
    (h : read_bounded c.umem ptr (MAX_PATH_LEN - 1) = some s) :
    (strncpy_from_user c.umem c.kbuf ptr (MAX_PATH_LEN - 1)).1 = (s.length : Int) ∧
    s.length ≤ MAX_PATH_LEN - 1 ∧
    (kbuf_at_print c ptr).length = MAX_PATH_LEN ∧
    (kbuf_at_print c ptr).take (s.length + 1) = s ++ [0] ∧
    cstr (kbuf_at_print c ptr) = s := by
  have hlen := read_bounded_length c.umem _ _ _ h
  have hnz := read_bounded_nonzero c.umem _ _ _ h
  obtain ⟨h1, h2, h3⟩ := strncpy_loop_ok c.umem ptr (MAX_PATH_LEN - 1) 0 c.kbuf s
    (by simpa using h) (by rw [kbuf_length]; decide)
  have hk := kbuf_length c
  simp only [Nat.zero_add, List.take_zero, List.nil_append] at h1 h3
  have e1 : (strncpy_from_user c.umem c.kbuf ptr (MAX_PATH_LEN - 1)).1 = (s.length : Int) := h1
  have hlt : s.length < (strncpy_from_user c.umem c.kbuf ptr (MAX_PATH_LEN - 1)).2.length := by
    unfold strncpy_from_user
    rw [h2, hk]
    have : MAX_PATH_LEN - 1 < MAX_PATH_LEN := by decide
    omega
  have hc : cstr (kbuf_at_print c ptr) = s := by
    unfold kbuf_at_print
    rw [e1, Int.toNat_ofNat, cstr_set_zero _ _ hlt]
    · exact h3
    · intro b hb
      have : (strncpy_from_user c.umem c.kbuf ptr (MAX_PATH_LEN - 1)).2.take s.length = s := h3
      rw [this] at hb
      exact hnz b hb
  refine ⟨e1, hlen, ?_, ?_, hc⟩
  · unfold kbuf_at_print
    rw [List.length_set]
    unfold strncpy_from_user
    rw [h2, hk]
  · unfold kbuf_at_print
    rw [e1, Int.toNat_ofNat, List.set_eq_take_append_cons_drop]
    simp only [hlt, if_true]
    have h3b : (strncpy_from_user c.umem c.kbuf ptr (MAX_PATH_LEN - 1)).2.take s.length = s := h3
    rw [h3b, List.take_append_eq_append_take]
    simp

/-! ## Lemmas on the handlers -/

theorem handler_skip (c : Ctx) (regs : pt_regs) (h : filtered_out c) :
    trace_openat_handler c regs = (0, []) := by
  unfold filtered_out at h
  simp [trace_openat_handler, h]

theorem callback_skip (c : Ctx) (fregs : ftrace_regs) (h : filtered_out c) :
    trace_openat_ftrace_callback c fregs = [] := by
  unfold filtered_out at h
  simp [trace_openat_ftrace_callback, h]

theorem handler_fault (c : Ctx) (regs : pt_regs) (hf : ¬ filtered_out c)
    (h : (strncpy_from_user c.umem c.kbuf (trace_openat_handler_args c.kmem regs).filename
      (MAX_PATH_LEN - 1)).1 < 0) :
    trace_openat_handler c regs =
      (0, [Call.strncpy_from_user (trace_openat_handler_args c.kmem regs).filename
        (MAX_PATH_LEN - 1)]) := by
  unfold filtered_out at hf
  simp only [trace_openat_handler, hf, if_false, h, if_true]

theorem handler_emit (c : Ctx) (regs : pt_regs) (s : List Nat) (hf : ¬ filtered_out c)
    (h : read_bounded c.umem (trace_openat_handler_args c.kmem regs).filename
      (MAX_PATH_LEN - 1) = some s) :
    trace_openat_handler c regs =
      (0, [Call.strncpy_from_user (trace_openat_handler_args c.kmem regs).filename
            (MAX_PATH_LEN - 1),
           Call.printk (LogLine.trace
             { pid := c.current.pid, comm := c.current.comm
               dfd := (trace_openat_handler_args c.kmem regs).dfd
               path := s
               flags := (trace_openat_handler_args c.kmem regs).flags })]) := by
  obtain ⟨h1, _, _, _, h5⟩ := strncpy_from_user_ok c _ s h
  have hn : ¬ (strncpy_from_user c.umem c.kbuf
      (trace_openat_handler_args c.kmem regs).filename (MAX_PATH_LEN - 1)).1 < 0 := by
    rw [h1]; omega
  unfold filtered_out at hf
  unfold kbuf_at_print at h5
  simp only [trace_openat_handler, hf, if_false, hn, h5]

theorem callback_null (c : Ctx) (fregs : ftrace_regs)
    (h : (trace_openat_ftrace_callback_args fregs).filename = 0) :
    trace_openat_ftrace_callback c fregs = [] := by
  simp [trace_openat_ftrace_callback, h]

theorem callback_fault (c : Ctx) (fregs : ftrace_regs) (hf : ¬ filtered_out c)
    (hp : (trace_openat_ftrace_callback_args fregs).filename ≠ 0)
    (h : (strncpy_from_user c.umem c.kbuf (trace_openat_ftrace_callback_args fregs).filename
      (MAX_PATH_LEN - 1)).1 < 0) :
    trace_openat_ftrace_callback c fregs =
      [Call.strncpy_from_user (trace_openat_ftrace_callback_args fregs).filename
        (MAX_PATH_LEN - 1)] := by
  unfold filtered_out at hf
  simp only [trace_openat_ftrace_callback, hf, if_false, hp, h, if_true]

theorem callback_emit (c : Ctx) (fregs : ftrace_regs) (s : List Nat) (hf : ¬ filtered_out c)
    (hp : (trace_openat_ftrace_callback_args fregs).filename ≠ 0)
    (h : read_bounded c.umem (trace_openat_ftrace_callback_args fregs).filename
      (MAX_PATH_LEN - 1) = some s) :
    trace_openat_ftrace_callback c fregs =
      [Call.strncpy_from_user (trace_openat_ftrace_callback_args fregs).filename
         (MAX_PATH_LEN - 1),
       Call.printk (LogLine.trace
         { pid := c.current.pid, comm := c.current.comm
           dfd := (trace_openat_ftrace_callback_args fregs).dfd
           path := s
           flags := (trace_openat_ftrace_callback_args fregs).flags })] := by
  obtain ⟨h1, _, _, _, h5⟩ := strncpy_from_user_ok c _ s h
  have hn : ¬ (strncpy_from_user c.umem c.kbuf
      (trace_openat_ftrace_callback_args fregs).filename (MAX_PATH_LEN - 1)).1 < 0 := by
    rw [h1]; omega
  unfold filtered_out at hf
  unfold kbuf_at_print at h5
  simp only [trace_openat_ftrace_callback, hf, if_false, hp, hn, h5]

theorem handler_args_eq (kmem : Nat → pt_regs) (outer : pt_regs) (A : Nat → Nat)
    (hA : kmem (outer.regs 0) = { regs := A }) :
    trace_openat_handler_args kmem outer =
      { dfd := int_cast (A 0), filename := A 1, flags := A 2 } := by
  simp [trace_openat_handler_args, hA]

theorem callback_args_eq (A : Nat → Nat) :
    trace_openat_ftrace_callback_args { regs := A } =
      { dfd := int_cast (A 0), filename := A 1, flags := A 2 } := by
  simp [trace_openat_ftrace_callback_args, ftrace_regs_get_argument]

theorem read_fault_iff (c : Ctx) (ptr : Nat) :
    (strncpy_from_user c.umem c.kbuf ptr (MAX_PATH_LEN - 1)).1 < 0 ↔
      read_bounded c.umem ptr (MAX_PATH_LEN - 1) = none := by
  constructor
  · intro h
    cases hr : read_bounded c.umem ptr (MAX_PATH_LEN - 1) with
    | none => rfl
    | some s =>
      have := (strncpy_from_user_ok c ptr s hr).1
      rw [this] at h
      omega
  · exact strncpy_from_user_fault c ptr

theorem not_filtered_of_pass (c : Ctx)
    (h : c.target_pid = 0 ∨ c.target_pid = c.current.pid) : ¬ filtered_out c := by
  unfold filtered_out
  rcases h with h | h
  · omega
  · intro hc
    exact hc.2 h.symm

/-! ## Lemmas on the lifecycle -/

theorem calls_since_append (h after : Host) (l : List Call) (e : after.calls = h.calls ++ l) :
    calls_since h after = l := by
  simp [calls_since, e]

theorem register_kprobe_ok (h : Host) (kp : kprobe) (a : KAddr)
    (hb : h.bind kp.symbol_name = .ok a) :
    register_kprobe h kp =
      (0, { kp with addr := a.val },
        { h with kprobes := kp.symbol_name :: h.kprobes
                 calls := h.calls ++ [Call.register_kprobe kp.symbol_name 0] }) := by
  simp [register_kprobe, hb]

theorem register_kprobe_error (h : Host) (kp : kprobe) (e : Errno)
    (hb : h.bind kp.symbol_name = .error e) :
    register_kprobe h kp =
      (e.val, kp,
        { h with calls := h.calls ++ [Call.register_kprobe kp.symbol_name e.val] }) := by
  simp [register_kprobe, hb]

theorem kprobe_lookup_ok (h : Host) (name : String) (a : KAddr) (hb : h.bind name = .ok a) :
    kprobe_lookup h name =
      (a.val, { h with calls := h.calls ++
        [Call.register_kprobe name 0, Call.unregister_kprobe name] }) := by
  simp [kprobe_lookup, register_kprobe, hb, unregister_kprobe]

theorem kprobe_lookup_error (h : Host) (name : String) (e : Errno)
    (hb : h.bind name = .error e) :
    kprobe_lookup h name =
      (0, { h with calls := h.calls ++ [Call.register_kprobe name e.val] }) := by
  have := e.property
  simp [kprobe_lookup, register_kprobe, hb, this]

theorem patch_init_no_symbol (m : FtraceModule) (h : Host) (e : Errno)
    (hb : h.bind "do_sys_openat2" = .error e) :
    trace_openat_ftrace_init m h =
      (-ENOENT, { m with target_func_addr := 0 },
        { h with calls := h.calls ++
          [Call.register_kprobe "do_sys_openat2" e.val,
           Call.printk LogLine.symbol_not_found] }) := by
  simp [trace_openat_ftrace_init, kprobe_lookup_error h _ e hb, printk]

theorem patch_init_filter_rejected (m : FtraceModule) (h : Host) (a : KAddr) (e : Errno)
    (hb : h.bind "do_sys_openat2" = .ok a) (hfa : h.filter_add a.val = some e) :
    trace_openat_ftrace_init m h =
      (e.val, { m with target_func_addr := a.val },
        { h with calls := h.calls ++
          [Call.register_kprobe "do_sys_openat2" 0,
           Call.unregister_kprobe "do_sys_openat2",
           Call.printk (LogLine.symbol_found a.val),
           Call.ftrace_set_filter_ip a.val false e.val,
           Call.printk (LogLine.filter_failed e.val)] }) := by
  have hnz := a.property
  have hneg := e.property
  have hne : e.val ≠ 0 := by omega
  simp [trace_openat_ftrace_init, kprobe_lookup_ok h _ a hb, printk, ftrace_set_filter_ip,
    hfa, hnz, hne]

theorem patch_init_reg_rejected (m : FtraceModule) (h : Host) (a : KAddr) (e : Errno)
    (hb : h.bind "do_sys_openat2" = .ok a) (hfa : h.filter_add a.val = none)
    (hr : h.ftrace_reg = some e) :
    trace_openat_ftrace_init m h =
      (e.val, { m with target_func_addr := a.val },
        { h with calls := h.calls ++
          [Call.register_kprobe "do_sys_openat2" 0,
           Call.unregister_kprobe "do_sys_openat2",
           Call.printk (LogLine.symbol_found a.val),
           Call.ftrace_set_filter_ip a.val false 0,
           Call.register_ftrace_function e.val,
           Call.printk (LogLine.register_failed e.val),
           Call.ftrace_set_filter_ip a.val true 0] }) := by
  have hnz := a.property
  have hneg := e.property
  have hne : e.val ≠ 0 := by omega
  simp [trace_openat_ftrace_init, kprobe_lookup_ok h _ a hb, printk, ftrace_set_filter_ip,
    register_ftrace_function, hfa, hr, hnz, hne]

theorem patch_init_ok (m : FtraceModule) (h : Host) (a : KAddr)
    (hb : h.bind "do_sys_openat2" = .ok a) (hfa : h.filter_add a.val = none)
    (hr : h.ftrace_reg = none) :
    trace_openat_ftrace_init m h =
      (0, { m with target_func_addr := a.val },
        { h with
          filter := a.val :: h.filter
          registered := true
          calls := h.calls ++
            [Call.register_kprobe "do_sys_openat2" 0,
             Call.unregister_kprobe "do_sys_openat2",
             Call.printk (LogLine.symbol_found a.val),
             Call.ftrace_set_filter_ip a.val false 0,
             Call.register_ftrace_function 0,
             Call.printk LogLine.hook_registered,
             Call.printk (if m.target_pid > 0 then LogLine.filtering m.target_pid
               else LogLine.logging_all)] }) := by
  have hnz := a.property
  simp [trace_openat_ftrace_init, kprobe_lookup_ok h _ a hb, printk, ftrace_set_filter_ip,
    register_ftrace_function, hfa, hr, hnz]
  split <;> simp

theorem probe_init_both (p : Int) (h : Host) (a a2 : KAddr)
    (hb : h.bind "__arm64_sys_openat" = .ok a) (hb2 : h.bind "__arm64_sys_openat2" = .ok a2) :
    probe_enabled p h =
      (0,
        { target_pid := p
          kp_openat := { symbol_name := "__arm64_sys_openat", addr := a.val }
          kp_openat2 := { symbol_name := "__arm64_sys_openat2", addr := a2.val } },
        { h with
          kprobes := "__arm64_sys_openat2" :: "__arm64_sys_openat" :: h.kprobes
          calls := h.calls ++
            [Call.register_kprobe "__arm64_sys_openat" 0,
             Call.register_kprobe "__arm64_sys_openat2" 0,
             Call.printk (LogLine.kprobes_registered true),
             Call.printk (if p > 0 then LogLine.filtering p else LogLine.logging_all)] }) := by
  have hnz := a2.property
  simp [probe_enabled, ProbeModule.load, trace_openat_init, register_kprobe, hb, hb2, printk, hnz]
  split <;> simp [hnz]

theorem probe_init_base_only (p : Int) (h : Host) (a : KAddr) (e : Errno)
    (hb : h.bind "__arm64_sys_openat" = .ok a) (hb2 : h.bind "__arm64_sys_openat2" = .error e) :
    probe_enabled p h =
      (0,
        { target_pid := p
          kp_openat := { symbol_name := "__arm64_sys_openat", addr := a.val }
          kp_openat2 := { symbol_name := "__arm64_sys_openat2", addr := 0 } },
        { h with
          kprobes := "__arm64_sys_openat" :: h.kprobes
          calls := h.calls ++
            [Call.register_kprobe "__arm64_sys_openat" 0,
             Call.register_kprobe "__arm64_sys_openat2" e.val,
             Call.printk (LogLine.openat2_failed e.val),
             Call.printk (LogLine.kprobes_registered false),
             Call.printk (if p > 0 then LogLine.filtering p else LogLine.logging_all)] }) := by
  have hneg := e.property
  simp [probe_enabled, ProbeModule.load, trace_openat_init, register_kprobe, hb, hb2, printk,
    hneg]
  split <;> simp

theorem probe_init_failed (p : Int) (h : Host) (e : Errno)
    (hb : h.bind "__arm64_sys_openat" = .error e) : (probe_enabled p h).1 ≠ 0 := by
  have hneg := e.property
  simp [probe_enabled, ProbeModule.load, trace_openat_init, register_kprobe, hb, hneg]
  omega

theorem patch_init_zero (p : Int) (h : Host) (h0 : (patch_enabled p h).1 = 0) :
    ∃ a, h.bind "do_sys_openat2" = .ok a ∧ h.filter_add a.val = none ∧ h.ftrace_reg = none := by
  unfold patch_enabled at h0
  cases hb : h.bind "do_sys_openat2" with
  | error e =>
    rw [patch_init_no_symbol _ h e hb] at h0
    exact absurd h0 (show ¬ (-ENOENT = 0) by decide)
  | ok a =>
    cases hfa : h.filter_add a.val with
    | some e =>
      rw [patch_init_filter_rejected _ h a e hb hfa] at h0
      have := e.property
      simp at h0
      omega
    | none =>
      cases hr : h.ftrace_reg with
      | some e =>
        rw [patch_init_reg_rejected _ h a e hb hfa hr] at h0
        have := e.property
        simp at h0
        omega
      | none => exact ⟨a, rfl, hfa, rfl⟩

/-! ## The claims -/

/-- C1 (amended): for every positive filter target P and every intercepted call
whose calling pid differs from P, both handlers return at once: the probe handler
returns 0, and neither makes any host call, so no trace line is printed and the
cross-space string read is never invoked. -/
theorem filter_mismatch_does_nothing (c : Ctx) (regs : pt_regs) (fregs : ftrace_regs)
    (hP : 0 < c.target_pid) (hpid : c.current.pid ≠ c.target_pid) :
    trace_openat_handler c regs = (0, []) ∧ trace_openat_ftrace_callback c fregs = [] :=
  ⟨handler_skip c regs ⟨hP, hpid⟩, callback_skip c fregs ⟨hP, hpid⟩⟩

/-- Witness for C1 (amended): target 4242, caller pid 99, zero events. -/
theorem filter_mismatch_does_nothing_witness :
    (0 : Int) < (scenario 4242 4096 (bytes "/etc/hostname")).target_pid ∧
    (scenario 4242 4096 (bytes "/etc/hostname")).current.pid ≠
      (scenario 4242 4096 (bytes "/etc/hostname")).target_pid ∧
    trace_openat_handler (scenario 4242 4096 (bytes "/etc/hostname")) outer_regs = (0, []) ∧
    trace_openat_ftrace_callback (scenario 4242 4096 (bytes "/etc/hostname"))
      { regs := args_at 4096 } = [] :=
  ⟨by decide, by decide,
    filter_mismatch_does_nothing (scenario 4242 4096 (bytes "/etc/hostname")) outer_regs
      { regs := args_at 4096 } (by decide) (by decide)⟩

/-- Counterexample to C1 as stated: the filter target -1 is nonzero and differs
from the caller pid 99, yet both handlers read the path and print a trace line. -/
theorem nonzero_target_not_filtered :
    (scenario (-1) 4096 (bytes "/x")).target_pid ≠ 0 ∧
    (scenario (-1) 4096 (bytes "/x")).current.pid ≠ (scenario (-1) 4096 (bytes "/x")).target_pid ∧
    trace_openat_handler (scenario (-1) 4096 (bytes "/x")) outer_regs =
      (0, [Call.strncpy_from_user 4096 255,
           Call.printk (LogLine.trace
             { pid := 99, comm := "cat", dfd := -100, path := bytes "/x", flags := 0 })]) ∧
    trace_openat_ftrace_callback (scenario (-1) 4096 (bytes "/x")) { regs := args_at 4096 } =
      [Call.strncpy_from_user 4096 255,
       Call.printk (LogLine.trace
         { pid := 99, comm := "cat", dfd := -100, path := bytes "/x", flags := 0 })] := by
  refine ⟨by decide, by decide, ?_, ?_⟩
  · rw [handler_emit (scenario (-1) 4096 (bytes "/x")) outer_regs (bytes "/x")
      (by unfold filtered_out; decide) (by decide)]
    decide
  · rw [callback_emit (scenario (-1) 4096 (bytes "/x")) { regs := args_at 4096 } (bytes "/x")
      (by unfold filtered_out; decide) (by decide) (by decide)]
    decide

/-- C2 (amended): for every intercepted call that passes the filter (target 0, or
target equal to the caller pid) and whose path string can be read, the probe
handler makes the read and prints exactly one trace line, and so does the patch
callback when the path pointer is not null; the line carries the caller pid and
short name, dfd = slot 0 as a signed 32-bit integer, the string read at the
pointer of slot 1, and the whole word of slot 2. -/
theorem passing_call_emits_one_event (c : Ctx) (A : Nat → Nat) (outer : pt_regs)
    (s : List Nat) (hA : c.kmem (outer.regs 0) = { regs := A })
    (hpass : c.target_pid = 0 ∨ c.target_pid = c.current.pid)
    (hread : read_bounded c.umem (A 1) (MAX_PATH_LEN - 1) = some s) :
    trace_openat_handler c outer =
      (0, [Call.strncpy_from_user (A 1) (MAX_PATH_LEN - 1),
           Call.printk (LogLine.trace
             { pid := c.current.pid, comm := c.current.comm, dfd := int_cast (A 0)
               path := s, flags := A 2 })]) ∧
    (A 1 ≠ 0 →
      trace_openat_ftrace_callback c { regs := A } =
        [Call.strncpy_from_user (A 1) (MAX_PATH_LEN - 1),
         Call.printk (LogLine.trace
           { pid := c.current.pid, comm := c.current.comm, dfd := int_cast (A 0)
             path := s, flags := A 2 })]) := by
  have hf := not_filtered_of_pass c hpass
  have e1 := handler_args_eq c.kmem outer A hA
  have e2 := callback_args_eq A
  constructor
  · have := handler_emit c outer s hf (by rw [e1]; exact hread)
    rw [e1] at this
    exact this
  · intro hp
    have := callback_emit c { regs := A } s hf (by rw [e2]; exact hp) (by rw [e2]; exact hread)
    rw [e2] at this
    exact this

/-- Witness for C2 (amended): target 0, `openat(-100, "/etc/hostname", 0)` by pid
99: one event with dfd -100, path "/etc/hostname", flags_raw 0, from each handler. -/
theorem passing_call_emits_one_event_witness :
    int_cast (args_at 4096 0) = -100 ∧ args_at 4096 2 = 0 ∧
    trace_openat_handler (scenario 0 4096 (bytes "/etc/hostname")) outer_regs =
      (0, [Call.strncpy_from_user (args_at 4096 1) (MAX_PATH_LEN - 1),
           Call.printk (LogLine.trace
             { pid := 99, comm := "cat", dfd := int_cast (args_at 4096 0)
               path := bytes "/etc/hostname", flags := args_at 4096 2 })]) ∧
    trace_openat_ftrace_callback (scenario 0 4096 (bytes "/etc/hostname"))
        { regs := args_at 4096 } =
      [Call.strncpy_from_user (args_at 4096 1) (MAX_PATH_LEN - 1),
       Call.printk (LogLine.trace
         { pid := 99, comm := "cat", dfd := int_cast (args_at 4096 0)
           path := bytes "/etc/hostname", flags := args_at 4096 2 })] :=
  ⟨by decide, by decide,
    (passing_call_emits_one_event (scenario 0 4096 (bytes "/etc/hostname")) (args_at 4096)
      outer_regs (bytes "/etc/hostname") rfl (Or.inl rfl) (by decide)).1,
    (passing_call_emits_one_event (scenario 0 4096 (bytes "/etc/hostname")) (args_at 4096)
      outer_regs (bytes "/etc/hostname") rfl (Or.inl rfl) (by decide)).2 (by decide)⟩

/-- Counterexample to C2 as stated: with target 0 the call passes the filter, and
the string "x" stored at address 0 can be read (the probe handler does print it),
yet the patch callback prints nothing, because it returns on a null path pointer
before the read. -/
theorem null_path_not_emitted_by_callback :
    (scenario 0 0 (bytes "x")).target_pid = 0 ∧
    read_bounded (scenario 0 0 (bytes "x")).umem (args_at 0 1) (MAX_PATH_LEN - 1) =
      some (bytes "x") ∧
    events (trace_openat_handler (scenario 0 0 (bytes "x")) outer_regs).2 =
      [{ pid := 99, comm := "cat", dfd := -100, path := bytes "x", flags := 0 }] ∧
    trace_openat_ftrace_callback (scenario 0 0 (bytes "x")) { regs := args_at 0 } = [] := by
  refine ⟨rfl, by decide, ?_, ?_⟩
  · rw [handler_emit (scenario 0 0 (bytes "x")) outer_regs (bytes "x")
      (by unfold filtered_out; decide) (by decide)]
    decide
  · exact callback_null _ _ (by decide)

/-- C3: with max_len = MAX_PATH_LEN = 256, take a call that passes the filter and
whose path pointer holds a readable string `s`. If `s` is longer than 255 bytes,
the path printed by the probe handler, and by the patch callback (which prints on
a non-null pointer only), is exactly the first 255 bytes of `s`, and `kbuf` holds
these 255 bytes followed by a terminator; if `s` is shorter than 255 bytes, the
path printed is `s` itself, and `kbuf` holds `s` followed by its terminator. -/
theorem emitted_path_truncated (c : Ctx) (A : Nat → Nat) (outer : pt_regs) (s : List Nat)
    (hA : c.kmem (outer.regs 0) = { regs := A })
    (hf : ¬ filtered_out c)
    (hs : string_at c.umem (A 1) s = true) :
    (MAX_PATH_LEN - 1 < s.length →
      (events (trace_openat_handler c outer).2).map TraceEvent.path
        = [s.take (MAX_PATH_LEN - 1)] ∧
      (events (trace_openat_ftrace_callback c { regs := A })).map TraceEvent.path
        = (if A 1 = 0 then [] else [s.take (MAX_PATH_LEN - 1)]) ∧
      (s.take (MAX_PATH_LEN - 1)).length = MAX_PATH_LEN - 1 ∧
      (kbuf_at_print c (A 1)).take MAX_PATH_LEN = s.take (MAX_PATH_LEN - 1) ++ [0]) ∧
    (s.length < MAX_PATH_LEN - 1 →
      (events (trace_openat_handler c outer).2).map TraceEvent.path = [s] ∧
      (events (trace_openat_ftrace_callback c { regs := A })).map TraceEvent.path
        = (if A 1 = 0 then [] else [s]) ∧
      (kbuf_at_print c (A 1)).take (s.length + 1) = s ++ [0]) := by
  have hr := read_bounded_of_string_at c.umem (MAX_PATH_LEN - 1) (A 1) s hs
  obtain ⟨_, _, _, hk, _⟩ := strncpy_from_user_ok c (A 1) _ hr
  have e1 := handler_args_eq c.kmem outer A hA
  have e2 := callback_args_eq A
  have hp := handler_emit c outer _ hf (by rw [e1]; exact hr)
  have hcb : (events (trace_openat_ftrace_callback c { regs := A })).map TraceEvent.path
      = (if A 1 = 0 then [] else [s.take (MAX_PATH_LEN - 1)]) := by
    by_cases h0 : A 1 = 0
    · rw [callback_null c _ (by rw [e2]; exact h0)]
      simp [h0, events]
    · rw [callback_emit c { regs := A } _ hf (by rw [e2]; exact h0) (by rw [e2]; exact hr)]
      simp [h0, events]
  have hpp : (events (trace_openat_handler c outer).2).map TraceEvent.path
      = [s.take (MAX_PATH_LEN - 1)] := by
    rw [hp]
    simp [events]
  constructor
  · intro hlong
    have hl : (s.take (MAX_PATH_LEN - 1)).length = MAX_PATH_LEN - 1 := by
      rw [List.length_take]
      omega
    refine ⟨hpp, hcb, hl, ?_⟩
    rw [hl] at hk
    exact hk
  · intro hshort
    have ht : s.take (MAX_PATH_LEN - 1) = s := List.take_of_length_le (by omega)
    rw [ht] at hpp hcb hk
    exact ⟨hpp, hcb, hk⟩

set_option maxRecDepth 8192 in
/-- Witness for C3: a stored string of 300 bytes is printed as its first 255
bytes, and the stored string "/etc/hostname" is printed whole, by both handlers. -/
theorem emitted_path_truncated_witness :
    ((events (trace_openat_handler (scenario 0 4096 (List.replicate 300 65)) outer_regs).2).map
        TraceEvent.path = [(List.replicate 300 65).take (MAX_PATH_LEN - 1)] ∧
      (events (trace_openat_ftrace_callback (scenario 0 4096 (List.replicate 300 65))
        { regs := args_at 4096 })).map TraceEvent.path
        = (if args_at 4096 1 = 0 then [] else [(List.replicate 300 65).take (MAX_PATH_LEN - 1)]) ∧
      ((List.replicate 300 65).take (MAX_PATH_LEN - 1)).length = MAX_PATH_LEN - 1 ∧
      (kbuf_at_print (scenario 0 4096 (List.replicate 300 65)) (args_at 4096 1)).take
        MAX_PATH_LEN = (List.replicate 300 65).take (MAX_PATH_LEN - 1) ++ [0]) ∧
    ((events (trace_openat_handler (scenario 0 4096 (bytes "/etc/hostname")) outer_regs).2).map
        TraceEvent.path = [bytes "/etc/hostname"] ∧
      (events (trace_openat_ftrace_callback (scenario 0 4096 (bytes "/etc/hostname"))
        { regs := args_at 4096 })).map TraceEvent.path
        = (if args_at 4096 1 = 0 then [] else [bytes "/etc/hostname"]) ∧
      (kbuf_at_print (scenario 0 4096 (bytes "/etc/hostname")) (args_at 4096 1)).take
        ((bytes "/etc/hostname").length + 1) = bytes "/etc/hostname" ++ [0]) :=
  ⟨(emitted_path_truncated (scenario 0 4096 (List.replicate 300 65)) (args_at 4096) outer_regs
      (List.replicate 300 65) rfl (by unfold filtered_out; decide) (by decide)).1 (by decide),
   (emitted_path_truncated (scenario 0 4096 (bytes "/etc/hostname")) (args_at 4096) outer_regs
      (bytes "/etc/hostname") rfl (by unfold filtered_out; decide) (by decide)).2 (by decide)⟩

/-- C4: for every intercepted call for which the bounded cross-space string read
reports a fault (negative result), the probe handler returns 0 and neither handler
prints anything (no trace line, no error line): the only host call either of them
can have made is the read itself, which changes nothing. -/
theorem read_fault_drops_event (c : Ctx) (A : Nat → Nat) (outer : pt_regs)
    (hA : c.kmem (outer.regs 0) = { regs := A })
    (hfault : (strncpy_from_user c.umem c.kbuf (A 1) (MAX_PATH_LEN - 1)).1 < 0) :
    (trace_openat_handler c outer).1 = 0 ∧
    (∀ x ∈ (trace_openat_handler c outer).2,
      x = Call.strncpy_from_user (A 1) (MAX_PATH_LEN - 1)) ∧
    (∀ x ∈ trace_openat_ftrace_callback c { regs := A },
      x = Call.strncpy_from_user (A 1) (MAX_PATH_LEN - 1)) ∧
    (∀ l, Call.printk l ∉ (trace_openat_handler c outer).2) ∧
    (∀ l, Call.printk l ∉ trace_openat_ftrace_callback c { regs := A }) ∧
    events (trace_openat_handler c outer).2 = [] ∧
    events (trace_openat_ftrace_callback c { regs := A }) = [] := by
  have e1 := handler_args_eq c.kmem outer A hA
  have e2 := callback_args_eq A
  by_cases hf : filtered_out c
  · rw [handler_skip c outer hf, callback_skip c _ hf]
    simp [events]
  · have hp := handler_fault c outer hf (by rw [e1]; exact hfault)
    rw [e1] at hp
    rw [hp]
    by_cases h0 : A 1 = 0
    · rw [callback_null c _ (by rw [e2]; exact h0)]
      simp [events]
    · have hc := callback_fault c { regs := A } hf (by rw [e2]; exact h0)
        (by rw [e2]; exact hfault)
      rw [e2] at hc
      rw [hc]
      simp [events]

/-- Witness for C4: the path page of the caller is not resident; both handlers
drop the event. -/
theorem read_fault_drops_event_witness :
    (strncpy_from_user (scenario_fault 0 4096).umem (scenario_fault 0 4096).kbuf
      (args_at 4096 1) (MAX_PATH_LEN - 1)).1 < 0 ∧
    (trace_openat_handler (scenario_fault 0 4096) outer_regs).1 = 0 ∧
    (∀ x ∈ (trace_openat_handler (scenario_fault 0 4096) outer_regs).2,
      x = Call.strncpy_from_user (args_at 4096 1) (MAX_PATH_LEN - 1)) ∧
    (∀ x ∈ trace_openat_ftrace_callback (scenario_fault 0 4096) { regs := args_at 4096 },
      x = Call.strncpy_from_user (args_at 4096 1) (MAX_PATH_LEN - 1)) ∧
    (∀ l, Call.printk l ∉ (trace_openat_handler (scenario_fault 0 4096) outer_regs).2) ∧
    (∀ l, Call.printk l ∉
      trace_openat_ftrace_callback (scenario_fault 0 4096) { regs := args_at 4096 }) ∧
    events (trace_openat_handler (scenario_fault 0 4096) outer_regs).2 = [] ∧
    events (trace_openat_ftrace_callback (scenario_fault 0 4096) { regs := args_at 4096 }) = [] :=
  ⟨by decide,
   read_fault_drops_event (scenario_fault 0 4096) (args_at 4096) outer_regs rfl (by decide)⟩

/-- C5: enable of the probe backend returns 0 exactly when attaching the base
symbol succeeds, whatever the host answers for the extended symbol. When the base
attach succeeds the base probe is attached with its address recorded (and the
extended probe too when its own attach succeeds); when the base attach fails with
a negative status, enable returns that status after the single attach attempt
(the extended attach is not tried) and leaves the globals and the attached probes
as they were. -/
theorem probe_enable_iff_base_attach (m : ProbeModule) (h : Host) :
    ((trace_openat_init m h).1 = 0 ↔ ∃ a, h.bind m.kp_openat.symbol_name = .ok a) ∧
    (∀ a, h.bind m.kp_openat.symbol_name = .ok a →
      (trace_openat_init m h).1 = 0 ∧
      (trace_openat_init m h).2.1.kp_openat.addr = a.val ∧
      (trace_openat_init m h).2.1.kp_openat.addr ≠ 0 ∧
      m.kp_openat.symbol_name ∈ (trace_openat_init m h).2.2.kprobes ∧
      (trace_openat_init m h).2.2.kprobes =
        (if attach_ok h m.kp_openat2.symbol_name then [m.kp_openat2.symbol_name] else [])
          ++ m.kp_openat.symbol_name :: h.kprobes) ∧
    (∀ e, h.bind m.kp_openat.symbol_name = .error e →
      (trace_openat_init m h).1 = e.val ∧
      (trace_openat_init m h).1 < 0 ∧
      (trace_openat_init m h).2.1 = m ∧
      (trace_openat_init m h).2.2.kprobes = h.kprobes ∧
      calls_since h (trace_openat_init m h).2.2 =
        [Call.register_kprobe m.kp_openat.symbol_name e.val,
         Call.printk (LogLine.kprobe_fatal m.kp_openat.symbol_name e.val)]) := by
  have hok : ∀ a, h.bind m.kp_openat.symbol_name = .ok a →
      (trace_openat_init m h).1 = 0 ∧
      (trace_openat_init m h).2.1.kp_openat.addr = a.val ∧
      (trace_openat_init m h).2.1.kp_openat.addr ≠ 0 ∧
      m.kp_openat.symbol_name ∈ (trace_openat_init m h).2.2.kprobes ∧
      (trace_openat_init m h).2.2.kprobes =
        (if attach_ok h m.kp_openat2.symbol_name then [m.kp_openat2.symbol_name] else [])
          ++ m.kp_openat.symbol_name :: h.kprobes := by
    intro a ha
    have hnz := a.property
    cases hb2 : h.bind m.kp_openat2.symbol_name with
    | error e2 =>
      have hneg := e2.property
      simp [trace_openat_init, register_kprobe, ha, hb2, attach_ok, printk, hneg, hnz]
      split <;> simp
    | ok a2 =>
      simp [trace_openat_init, register_kprobe, ha, hb2, attach_ok, printk, hnz]
      split <;> simp
  have herr : ∀ e, h.bind m.kp_openat.symbol_name = .error e →
      (trace_openat_init m h).1 = e.val ∧
      (trace_openat_init m h).1 < 0 ∧
      (trace_openat_init m h).2.1 = m ∧
      (trace_openat_init m h).2.2.kprobes = h.kprobes ∧
      calls_since h (trace_openat_init m h).2.2 =
        [Call.register_kprobe m.kp_openat.symbol_name e.val,
         Call.printk (LogLine.kprobe_fatal m.kp_openat.symbol_name e.val)] := by
    intro e he
    have hneg := e.property
    simp [trace_openat_init, register_kprobe, he, printk, hneg, calls_since]
  refine ⟨?_, hok, herr⟩
  constructor
  · intro h0
    cases hb : h.bind m.kp_openat.symbol_name with
    | ok a => exact ⟨a, rfl⟩
    | error e =>
      have := herr e hb
      have hneg := e.property
      omega
  · rintro ⟨a, ha⟩
    exact (hok a ha).1

/-- Witness for C5: on a host that refuses the extended probe, enable returns 0
with the base probe attached; on a host that refuses every probe, enable returns
-2 after one attach attempt and nothing is attached. -/
theorem probe_enable_iff_base_attach_witness :
    (host_base_only.bind "__arm64_sys_openat" = .ok ⟨4096, by decide⟩ ∧
      attach_ok host_base_only "__arm64_sys_openat2" = false ∧
      (trace_openat_init (ProbeModule.load 0) host_base_only).1 = 0 ∧
      (trace_openat_init (ProbeModule.load 0) host_base_only).2.2.kprobes =
        (if attach_ok host_base_only "__arm64_sys_openat2" then ["__arm64_sys_openat2"] else [])
          ++ "__arm64_sys_openat" :: host_base_only.kprobes) ∧
    (host_no_symbol.bind "__arm64_sys_openat" = .error ⟨-2, by decide⟩ ∧
      (trace_openat_init (ProbeModule.load 0) host_no_symbol).1 = -2 ∧
      (trace_openat_init (ProbeModule.load 0) host_no_symbol).2.2.kprobes =
        host_no_symbol.kprobes ∧
      calls_since host_no_symbol (trace_openat_init (ProbeModule.load 0) host_no_symbol).2.2 =
        [Call.register_kprobe "__arm64_sys_openat" (-2),
         Call.printk (LogLine.kprobe_fatal "__arm64_sys_openat" (-2))]) :=
  ⟨⟨rfl, rfl,
    ((probe_enable_iff_base_attach (ProbeModule.load 0) host_base_only).2.1
      ⟨4096, by decide⟩ rfl).1,
    ((probe_enable_iff_base_attach (ProbeModule.load 0) host_base_only).2.1
      ⟨4096, by decide⟩ rfl).2.2.2.2⟩,
   ⟨rfl,
    ((probe_enable_iff_base_attach (ProbeModule.load 0) host_no_symbol).2.2
      ⟨-2, by decide⟩ rfl).1,
    ((probe_enable_iff_base_attach (ProbeModule.load 0) host_no_symbol).2.2
      ⟨-2, by decide⟩ rfl).2.2.2.1,
    ((probe_enable_iff_base_attach (ProbeModule.load 0) host_no_symbol).2.2
      ⟨-2, by decide⟩ rfl).2.2.2.2⟩⟩

/-- C6: whenever enable of the patch backend fails (nonzero return) on a host that
held nothing for the module, the return value is negative and the host is left
with no address-filter entry, no registered callback and no probe attached; the
failure has one of the three causes (symbol unresolved, filter-set rejected,
registration rejected), and when the registration is rejected after the filter
was set, the last host call removes the filter entry of the resolved address. -/
theorem patch_enable_failure_rolls_back (m : FtraceModule) (h : Host) (hidle : h.idle)
    (hfail : (trace_openat_ftrace_init m h).1 ≠ 0) :
    (trace_openat_ftrace_init m h).1 < 0 ∧
    (trace_openat_ftrace_init m h).2.2.filter = [] ∧
    (trace_openat_ftrace_init m h).2.2.registered = false ∧
    (trace_openat_ftrace_init m h).2.2.kprobes = [] ∧
    ((∃ e, h.bind "do_sys_openat2" = .error e) ∨
     (∃ a e, h.bind "do_sys_openat2" = .ok a ∧ h.filter_add a.val = some e) ∨
     (∃ a e, h.bind "do_sys_openat2" = .ok a ∧ h.filter_add a.val = none ∧
        h.ftrace_reg = some e)) ∧
    (∀ a e, h.bind "do_sys_openat2" = .ok a → h.filter_add a.val = none →
      h.ftrace_reg = some e →
      (trace_openat_ftrace_init m h).1 = e.val ∧
      calls_since h (trace_openat_ftrace_init m h).2.2 =
        [Call.register_kprobe "do_sys_openat2" 0,
         Call.unregister_kprobe "do_sys_openat2",
         Call.printk (LogLine.symbol_found a.val),
         Call.ftrace_set_filter_ip a.val false 0,
         Call.register_ftrace_function e.val,
         Call.printk (LogLine.register_failed e.val),
         Call.ftrace_set_filter_ip a.val true 0]) := by
  obtain ⟨hk, hfl, hrg⟩ := hidle
  have hlast : ∀ a e, h.bind "do_sys_openat2" = .ok a → h.filter_add a.val = none →
      h.ftrace_reg = some e →
      (trace_openat_ftrace_init m h).1 = e.val ∧
      calls_since h (trace_openat_ftrace_init m h).2.2 =
        [Call.register_kprobe "do_sys_openat2" 0,
         Call.unregister_kprobe "do_sys_openat2",
         Call.printk (LogLine.symbol_found a.val),
         Call.ftrace_set_filter_ip a.val false 0,
         Call.register_ftrace_function e.val,
         Call.printk (LogLine.register_failed e.val),
         Call.ftrace_set_filter_ip a.val true 0] := by
    intro a e hb hfa hr
    rw [patch_init_reg_rejected m h a e hb hfa hr]
    exact ⟨rfl, calls_since_append _ _ _ rfl⟩
  have hmain : (trace_openat_ftrace_init m h).1 < 0 ∧
      (trace_openat_ftrace_init m h).2.2.filter = [] ∧
      (trace_openat_ftrace_init m h).2.2.registered = false ∧
      (trace_openat_ftrace_init m h).2.2.kprobes = [] ∧
      ((∃ e, h.bind "do_sys_openat2" = .error e) ∨
       (∃ a e, h.bind "do_sys_openat2" = .ok a ∧ h.filter_add a.val = some e) ∨
       (∃ a e, h.bind "do_sys_openat2" = .ok a ∧ h.filter_add a.val = none ∧
          h.ftrace_reg = some e)) := by
    cases hb : h.bind "do_sys_openat2" with
    | error e =>
      rw [patch_init_no_symbol m h e hb]
      exact ⟨show -ENOENT < 0 by decide, hfl, hrg, hk, Or.inl ⟨e, rfl⟩⟩
    | ok a =>
      cases hfa : h.filter_add a.val with
      | some e =>
        rw [patch_init_filter_rejected m h a e hb hfa]
        exact ⟨e.property, hfl, hrg, hk, Or.inr (Or.inl ⟨a, e, rfl, hfa⟩)⟩
      | none =>
        cases hr : h.ftrace_reg with
        | some e =>
          rw [patch_init_reg_rejected m h a e hb hfa hr]
          exact ⟨e.property, hfl, hrg, hk, Or.inr (Or.inr ⟨a, e, rfl, hfa, rfl⟩)⟩
        | none =>
          exfalso
          apply hfail
          rw [patch_init_ok m h a hb hfa hr]
  exact ⟨hmain.1, hmain.2.1, hmain.2.2.1, hmain.2.2.2.1, hmain.2.2.2.2, hlast⟩

/-- Witness for C6: the host resolves the symbol and accepts the filter but rejects
the registration with -16; enable returns -16 and ends by removing the filter. -/
theorem patch_enable_failure_rolls_back_witness :
    host_reg_rejected.idle ∧
    (trace_openat_ftrace_init (FtraceModule.load 0) host_reg_rejected).1 ≠ 0 ∧
    (trace_openat_ftrace_init (FtraceModule.load 0) host_reg_rejected).1 < 0 ∧
    (trace_openat_ftrace_init (FtraceModule.load 0) host_reg_rejected).2.2.filter = [] ∧
    (trace_openat_ftrace_init (FtraceModule.load 0) host_reg_rejected).2.2.registered = false ∧
    (trace_openat_ftrace_init (FtraceModule.load 0) host_reg_rejected).1 = -16 ∧
    calls_since host_reg_rejected
        (trace_openat_ftrace_init (FtraceModule.load 0) host_reg_rejected).2.2 =
      [Call.register_kprobe "do_sys_openat2" 0,
       Call.unregister_kprobe "do_sys_openat2",
       Call.printk (LogLine.symbol_found 4096),
       Call.ftrace_set_filter_ip 4096 false 0,
       Call.register_ftrace_function (-16),
       Call.printk (LogLine.register_failed (-16)),
       Call.ftrace_set_filter_ip 4096 true 0] :=
  have hidle : host_reg_rejected.idle := ⟨rfl, rfl, rfl⟩
  have hfail : (trace_openat_ftrace_init (FtraceModule.load 0) host_reg_rejected).1 ≠ 0 := by
    decide
  have w := patch_enable_failure_rolls_back (FtraceModule.load 0) host_reg_rejected hidle hfail
  ⟨hidle, hfail, w.1, w.2.1, w.2.2.1,
    (w.2.2.2.2.2 ⟨4096, by decide⟩ ⟨-16, by decide⟩ rfl rfl rfl).1,
    (w.2.2.2.2.2 ⟨4096, by decide⟩ ⟨-16, by decide⟩ rfl rfl rfl).2⟩

/-- C7: for every symbol name, kprobe_lookup leaves the attached probes as they
were. When the temporary attach fails it returns 0 (NotFound) and the attach
attempt is its only host call (no detach); otherwise it returns exactly the
address the host bound, and its host calls are the attach followed by the detach
of that probe. -/
theorem kprobe_lookup_resolves (h : Host) (name : String) :
    (kprobe_lookup h name).2.kprobes = h.kprobes ∧
    (∀ e, h.bind name = .error e →
      (kprobe_lookup h name).1 = 0 ∧
      calls_since h (kprobe_lookup h name).2 = [Call.register_kprobe name e.val]) ∧
    (∀ a, h.bind name = .ok a →
      (kprobe_lookup h name).1 = a.val ∧
      calls_since h (kprobe_lookup h name).2 =
        [Call.register_kprobe name 0, Call.unregister_kprobe name]) := by
  refine ⟨?_, ?_, ?_⟩
  · cases hb : h.bind name with
    | error e => rw [kprobe_lookup_error h name e hb]
    | ok a => rw [kprobe_lookup_ok h name a hb]
  · intro e he
    rw [kprobe_lookup_error h name e he]
    exact ⟨rfl, calls_since_append _ _ _ rfl⟩
  · intro a ha
    rw [kprobe_lookup_ok h name a ha]
    exact ⟨rfl, calls_since_append _ _ _ rfl⟩

/-- Witness for C7: `do_sys_openat2` resolves to 4096 on a host that knows it, and
to 0 on a host that does not. -/
theorem kprobe_lookup_resolves_witness :
    (host_no_symbol.bind "do_sys_openat2" = .error ⟨-2, by decide⟩ ∧
      (kprobe_lookup host_no_symbol "do_sys_openat2").1 = 0 ∧
      calls_since host_no_symbol (kprobe_lookup host_no_symbol "do_sys_openat2").2 =
        [Call.register_kprobe "do_sys_openat2" (-2)]) ∧
    (host_ok.bind "do_sys_openat2" = .ok ⟨4096, by decide⟩ ∧
      (kprobe_lookup host_ok "do_sys_openat2").1 = 4096 ∧
      calls_since host_ok (kprobe_lookup host_ok "do_sys_openat2").2 =
        [Call.register_kprobe "do_sys_openat2" 0, Call.unregister_kprobe "do_sys_openat2"]) :=
  ⟨⟨rfl, (kprobe_lookup_resolves host_no_symbol "do_sys_openat2").2.1 ⟨-2, by decide⟩ rfl⟩,
   ⟨rfl, (kprobe_lookup_resolves host_ok "do_sys_openat2").2.2 ⟨4096, by decide⟩ rfl⟩⟩

/-- C9: for every argument block A, the indirected extraction of the probe handler
(outer snapshot whose slot 0 points to A) and the direct extraction of the patch
callback (A as its argument accessor) yield the same triple, namely (A[0] as a
signed 32-bit integer, A[1], A[2]); both are pure functions of their inputs. -/
theorem extraction_agrees (kmem : Nat → pt_regs) (outer : pt_regs) (A : Nat → Nat)
    (hA : kmem (outer.regs 0) = { regs := A }) :
    trace_openat_handler_args kmem outer = trace_openat_ftrace_callback_args { regs := A } ∧
    trace_openat_handler_args kmem outer = extract_spec A ∧
    trace_openat_ftrace_callback_args { regs := A } = extract_spec A ∧
    extract_spec A = { dfd := int_cast (A 0), filename := A 1, flags := A 2 } := by
  rw [handler_args_eq kmem outer A hA, callback_args_eq A]
  exact ⟨rfl, rfl, rfl, rfl⟩

/-- Witness for C9: the block (2^64 - 100, 4096, 0) gives (-100, 4096, 0) both ways. -/
theorem extraction_agrees_witness :
    kmem_with (args_at 4096) (outer_regs.regs 0) = { regs := args_at 4096 } ∧
    int_cast (args_at 4096 0) = -100 ∧
    trace_openat_handler_args (kmem_with (args_at 4096)) outer_regs =
      trace_openat_ftrace_callback_args { regs := args_at 4096 } ∧
    trace_openat_handler_args (kmem_with (args_at 4096)) outer_regs = extract_spec (args_at 4096) ∧
    trace_openat_ftrace_callback_args { regs := args_at 4096 } = extract_spec (args_at 4096) ∧
    extract_spec (args_at 4096) =
      { dfd := int_cast (args_at 4096 0), filename := args_at 4096 1, flags := args_at 4096 2 } :=
  ⟨rfl, by decide, extraction_agrees (kmem_with (args_at 4096)) outer_regs (args_at 4096) rfl⟩

/-- C10: after a successful enable, the release calls of disable are the resources
still held at the end of enable, in reverse order of acquisition. The probe
backend detaches the extended point first, exactly when its attach succeeded, and
then the base point; the patch backend unregisters the callback first and then
removes the address filter of the resolved address. -/
theorem disable_releases_in_reverse (p : Int) (h : Host) :
    ((probe_enabled p h).1 = 0 →
      (calls_since h (probe_enabled p h).2.2).filterMap acquired =
        Resource.probe "__arm64_sys_openat" ::
          (if attach_ok h "__arm64_sys_openat2" then [Resource.probe "__arm64_sys_openat2"]
           else []) ∧
      (calls_since (probe_enabled p h).2.2 (probe_disabled p h).2).filterMap released =
        (if attach_ok h "__arm64_sys_openat2" then [Resource.probe "__arm64_sys_openat2"]
         else []) ++ [Resource.probe "__arm64_sys_openat"] ∧
      (calls_since (probe_enabled p h).2.2 (probe_disabled p h).2).filterMap released =
        (held_after [] (calls_since h (probe_enabled p h).2.2)).reverse) ∧
    ((patch_enabled p h).1 = 0 →
      held_after [] (calls_since h (patch_enabled p h).2.2) =
        [Resource.filter_entry (patch_enabled p h).2.1.target_func_addr, Resource.callback] ∧
      (calls_since (patch_enabled p h).2.2 (patch_disabled p h).2).filterMap released =
        [Resource.callback, Resource.filter_entry (patch_enabled p h).2.1.target_func_addr] ∧
      (calls_since (patch_enabled p h).2.2 (patch_disabled p h).2).filterMap released =
        (held_after [] (calls_since h (patch_enabled p h).2.2)).reverse) := by
  constructor
  · intro h0
    cases hb : h.bind "__arm64_sys_openat" with
    | error e => exact absurd h0 (probe_init_failed p h e hb)
    | ok a =>
      have hnz := a.property
      cases hb2 : h.bind "__arm64_sys_openat2" with
      | error e =>
        simp [probe_disabled, probe_init_base_only p h a e hb hb2, trace_openat_exit,
          unregister_kprobe, printk, calls_since, hnz, attach_ok, hb2, acquired, released,
          held_after]
        have hneg := e.property
        have hne : e.val ≠ 0 := by omega
        simp [hne]
      | ok a2 =>
        have hnz2 := a2.property
        simp [probe_disabled, probe_init_both p h a a2 hb hb2, trace_openat_exit,
          unregister_kprobe, printk, calls_since, hnz, hnz2, attach_ok, hb2, acquired, released,
          held_after]
  · intro h0
    obtain ⟨a, hb, hfa, hr⟩ := patch_init_zero p h h0
    simp [patch_disabled, patch_enabled, patch_init_ok _ h a hb hfa hr,
      trace_openat_ftrace_cleanup, unregister_ftrace_function, ftrace_set_filter_ip, printk,
      calls_since, acquired, released, held_after]

/-- Witness for C10: a host that refuses the extended probe (one detach, of the
base point), and a host on which every request succeeds. -/
theorem disable_releases_in_reverse_witness :
    (probe_enabled 0 host_base_only).1 = 0 ∧ (probe_enabled 0 host_ok).1 = 0 ∧
    (patch_enabled 0 host_ok).1 = 0 ∧
    (calls_since (probe_enabled 0 host_base_only).2.2
        (probe_disabled 0 host_base_only).2).filterMap released =
      (if attach_ok host_base_only "__arm64_sys_openat2"
        then [Resource.probe "__arm64_sys_openat2"] else [])
        ++ [Resource.probe "__arm64_sys_openat"] ∧
    (calls_since (probe_enabled 0 host_ok).2.2 (probe_disabled 0 host_ok).2).filterMap released =
      (held_after [] (calls_since host_ok (probe_enabled 0 host_ok).2.2)).reverse ∧
    (calls_since (patch_enabled 0 host_ok).2.2 (patch_disabled 0 host_ok).2).filterMap released =
      [Resource.callback, Resource.filter_entry (patch_enabled 0 host_ok).2.1.target_func_addr] :=
  ⟨by decide, by decide, by decide,
    ((disable_releases_in_reverse 0 host_base_only).1 (by decide)).2.1,
    ((disable_releases_in_reverse 0 host_ok).1 (by decide)).2.2,
    ((disable_releases_in_reverse 0 host_ok).2 (by decide)).2.1⟩

/-- C12: in both handlers, whenever the bounded string read with limit
MAX_PATH_LEN - 1 = 255 does not report a fault, its result len satisfies
0 <= len <= 255, so the index at which the terminator is stored lies inside the
256-byte buffer `kbuf` (as does any index in that range), the buffer keeps its 256
bytes and holds a zero byte at index len, and the C string it holds has at most
255 bytes; accordingly every path either handler prints has at most 255 bytes. -/
theorem terminator_store_in_bounds (c : Ctx) (regs : pt_regs) (fregs : ftrace_regs)
    (ptr : Nat) :
    (∀ len : Int, 0 ≤ len → len ≤ ((MAX_PATH_LEN - 1 : Nat) : Int) →
      len.toNat < c.kbuf.length) ∧
    (¬ (strncpy_from_user c.umem c.kbuf ptr (MAX_PATH_LEN - 1)).1 < 0 →
      0 ≤ (strncpy_from_user c.umem c.kbuf ptr (MAX_PATH_LEN - 1)).1 ∧
      (strncpy_from_user c.umem c.kbuf ptr (MAX_PATH_LEN - 1)).1
        ≤ ((MAX_PATH_LEN - 1 : Nat) : Int) ∧
      (strncpy_from_user c.umem c.kbuf ptr (MAX_PATH_LEN - 1)).1.toNat
        < (strncpy_from_user c.umem c.kbuf ptr (MAX_PATH_LEN - 1)).2.length ∧
      (kbuf_at_print c ptr).length = MAX_PATH_LEN ∧
      (kbuf_at_print c ptr)[(strncpy_from_user c.umem c.kbuf ptr
        (MAX_PATH_LEN - 1)).1.toNat]? = some 0 ∧
      (cstr (kbuf_at_print c ptr)).length ≤ MAX_PATH_LEN - 1) ∧
    (∀ e ∈ events (trace_openat_handler c regs).2, e.path.length ≤ MAX_PATH_LEN - 1) ∧
    (∀ e ∈ events (trace_openat_ftrace_callback c fregs), e.path.length ≤ MAX_PATH_LEN - 1) := by
  refine ⟨?_, ?_, ?_, ?_⟩
  · intro len h0 h1
    rw [kbuf_length]
    have : ((MAX_PATH_LEN - 1 : Nat) : Int) = 255 := by decide
    have hm : MAX_PATH_LEN = 256 := rfl
    omega
  · intro hok
    cases hr : read_bounded c.umem ptr (MAX_PATH_LEN - 1) with
    | none => exact absurd (strncpy_from_user_fault c ptr hr) hok
    | some s =>
      obtain ⟨h1, h2, h3, h4, h5⟩ := strncpy_from_user_ok c ptr s hr
      have hl : (strncpy_from_user c.umem c.kbuf ptr (MAX_PATH_LEN - 1)).2.length
          = MAX_PATH_LEN := by
        have := h3
        unfold kbuf_at_print at this
        rw [List.length_set] at this
        exact this
      have hm : MAX_PATH_LEN = 256 := rfl
      rw [h1, hl, h5]
      refine ⟨by omega, by omega, by simp; omega, h3, ?_, h2⟩
      rw [Int.toNat_ofNat]
      have h6 : ((kbuf_at_print c ptr).take (s.length + 1))[s.length]? = some 0 := by
        rw [h4]
        simp
      rw [List.getElem?_take_of_lt (by omega)] at h6
      exact h6
  · intro e he
    by_cases hf : filtered_out c
    · rw [handler_skip c regs hf] at he
      simp [events] at he
    · cases hr : read_bounded c.umem (trace_openat_handler_args c.kmem regs).filename
          (MAX_PATH_LEN - 1) with
      | none =>
        rw [handler_fault c regs hf (strncpy_from_user_fault c _ hr)] at he
        simp [events] at he
      | some s =>
        rw [handler_emit c regs s hf hr] at he
        simp [events] at he
        subst he
        exact read_bounded_length c.umem _ _ _ hr
  · intro e he
    by_cases hf : filtered_out c
    · rw [callback_skip c fregs hf] at he
      simp [events] at he
    · by_cases hp : (trace_openat_ftrace_callback_args fregs).filename = 0
      · rw [callback_null c fregs hp] at he
        simp [events] at he
      · cases hr : read_bounded c.umem (trace_openat_ftrace_callback_args fregs).filename
            (MAX_PATH_LEN - 1) with
        | none =>
          rw [callback_fault c fregs hf hp (strncpy_from_user_fault c _ hr)] at he
          simp [events] at he
        | some s =>
          rw [callback_emit c fregs s hf hp hr] at he
          simp [events] at he
          subst he
          exact read_bounded_length c.umem _ _ _ hr

/-- Witness for C12: the read of "/etc/hostname" is not a fault; len = 13 and the
terminator is stored at index 13 of the 256-byte buffer. -/
theorem terminator_store_in_bounds_witness :
    ¬ (strncpy_from_user (scenario 0 4096 (bytes "/etc/hostname")).umem
        (scenario 0 4096 (bytes "/etc/hostname")).kbuf 4096 (MAX_PATH_LEN - 1)).1 < 0 ∧
    (strncpy_from_user (scenario 0 4096 (bytes "/etc/hostname")).umem
        (scenario 0 4096 (bytes "/etc/hostname")).kbuf 4096 (MAX_PATH_LEN - 1)).1 = 13 ∧
    (kbuf_at_print (scenario 0 4096 (bytes "/etc/hostname")) 4096).length = MAX_PATH_LEN ∧
    (kbuf_at_print (scenario 0 4096 (bytes "/etc/hostname")) 4096)[(strncpy_from_user
        (scenario 0 4096 (bytes "/etc/hostname")).umem
        (scenario 0 4096 (bytes "/etc/hostname")).kbuf 4096 (MAX_PATH_LEN - 1)).1.toNat]?
      = some 0 ∧
    (4 : Int).toNat < (scenario 0 4096 (bytes "/etc/hostname")).kbuf.length :=
  have hlen : (strncpy_from_user (scenario 0 4096 (bytes "/etc/hostname")).umem
      (scenario 0 4096 (bytes "/etc/hostname")).kbuf 4096 (MAX_PATH_LEN - 1)).1 = 13 :=
    (strncpy_from_user_ok (scenario 0 4096 (bytes "/etc/hostname")) 4096
      (bytes "/etc/hostname") (by decide)).1
  have hok : ¬ (strncpy_from_user (scenario 0 4096 (bytes "/etc/hostname")).umem
      (scenario 0 4096 (bytes "/etc/hostname")).kbuf 4096 (MAX_PATH_LEN - 1)).1 < 0 := by
    rw [hlen]; decide
  have w := terminator_store_in_bounds (scenario 0 4096 (bytes "/etc/hostname")) outer_regs
    { regs := args_at 4096 } 4096
  ⟨hok, hlen, (w.2.1 hok).2.2.2.1, (w.2.1 hok).2.2.2.2.1, w.1 4 (by decide) (by decide)⟩

/-- C13: for every intercepted call whose path argument (slot 1) is the null
pointer, the patch callback makes no host call at all: it prints no trace line and
does not invoke the cross-space string read, whatever the filter says. -/
theorem null_path_skipped_by_callback (c : Ctx) (fregs : ftrace_regs)
    (hnull : fregs.regs 1 = 0) :
    trace_openat_ftrace_callback c fregs = [] ∧
    events (trace_openat_ftrace_callback c fregs) = [] ∧
    (∀ src count, Call.strncpy_from_user src count ∉ trace_openat_ftrace_callback c fregs) := by
  have h : trace_openat_ftrace_callback c fregs = [] :=
    callback_null c fregs (by simp [trace_openat_ftrace_callback_args, ftrace_regs_get_argument,
      hnull])
  rw [h]
  simp [events]

/-- Witness for C13: target 0 lets the call through and a string is even stored at
address 0, yet the callback makes no host call for the null path pointer. -/
theorem null_path_skipped_by_callback_witness :
    (scenario 0 0 (bytes "x")).target_pid = 0 ∧
    (args_at 0) 1 = 0 ∧
    trace_openat_ftrace_callback (scenario 0 0 (bytes "x")) { regs := args_at 0 } = [] ∧
    events (trace_openat_ftrace_callback (scenario 0 0 (bytes "x")) { regs := args_at 0 }) = [] ∧
    (∀ src count, Call.strncpy_from_user src count ∉
      trace_openat_ftrace_callback (scenario 0 0 (bytes "x")) { regs := args_at 0 }) :=
  ⟨rfl, rfl,
    null_path_skipped_by_callback (scenario 0 0 (bytes "x")) { regs := args_at 0 } rfl⟩

end TraceOpenat

namespace Promote

/-! ## Lemmas on promote_write -/

theorem read_exact_length (umem : TraceOpenat.UserMem) :
    ∀ (n src : Nat) (bs : List Nat), read_exact umem src n = some bs → bs.length = n := by
  intro n
  induction n with
  | zero =>
    intro src bs h
    simp [read_exact] at h
    subst h
    rfl
  | succ n ih =>
    intro src bs h
    unfold read_exact at h
    cases hb : umem src with
    | none => simp [hb] at h
    | some b =>
      simp only [hb] at h
      cases hr : read_exact umem (src + 1) n with
      | none => simp [hr] at h
      | some t =>
        simp [hr] at h
        subst h
        simp [ih (src + 1) t hr]

theorem copy_loop_fault (umem : TraceOpenat.UserMem) (src : Nat) :
    ∀ (n i : Nat) (dst : List Nat), read_exact umem (src + i) n = none →
      (copy_loop umem src n i dst).1 ≠ 0 := by
  intro n
  induction n with
  | zero =>
    intro i dst h
    simp [read_exact] at h
  | succ n ih =>
    intro i dst h
    unfold read_exact at h
    unfold copy_loop
    cases hb : umem (src + i) with
    | none => simp
    | some b =>
      simp only [hb] at h ⊢
      cases hr : read_exact umem (src + i + 1) n with
      | none => exact ih (i + 1) (dst.set i b) (by rw [← hr]; rfl)
      | some t => simp [hr] at h

theorem copy_loop_ok (umem : TraceOpenat.UserMem) (src : Nat) :
    ∀ (n i : Nat) (dst bs : List Nat), read_exact umem (src + i) n = some bs →
      i + n ≤ dst.length →
      (copy_loop umem src n i dst).1 = 0 ∧
      (copy_loop umem src n i dst).2.length = dst.length ∧
      (copy_loop umem src n i dst).2.take (i + n) = dst.take i ++ bs := by
  intro n
  induction n with
  | zero =>
    intro i dst bs h hlen
    simp [read_exact] at h
    subst h
    simp [copy_loop]
  | succ n ih =>
    intro i dst bs h hlen
    unfold read_exact at h
    unfold copy_loop
    cases hb : umem (src + i) with
    | none => simp [hb] at h
    | some b =>
      simp only [hb] at h ⊢
      cases hr : read_exact umem (src + i + 1) n with
      | none => simp [hr] at h
      | some t =>
        simp [hr] at h
        subst h
        have hi : i < dst.length := by omega
        obtain ⟨h1, h2, h3⟩ := ih (i + 1) (dst.set i b) t (by rw [← hr]; rfl)
          (by simp; omega)
        refine ⟨h1, by rw [h2]; simp, ?_⟩
        have e : i + (n + 1) = i + 1 + n := by omega
        rw [e, h3]
        have hs : (List.take i dst).set i b = List.take i dst :=
          List.set_eq_of_length_le (by simp)
        have : (dst.set i b).take (i + 1) = dst.take i ++ [b] := by
          rw [List.take_succ]
          simp [List.set_take, hi, hs]
        rw [this]
        simp

theorem cstr_append_zero (l r : List Nat) :
    TraceOpenat.cstr (l ++ 0 :: r) = TraceOpenat.cstr l := by
  unfold TraceOpenat.cstr
  induction l with
  | nil => simp
  | cons a t ih =>
    by_cases ha : a = 0
    · simp [ha]
    · simp [List.takeWhile_cons, ha, ih]

theorem getD_append_cons (l r : List Nat) (a d : Nat) : (l ++ a :: r).getD l.length d = a := by
  induction l with
  | nil => simp
  | cons b t ih => simpa using ih

theorem set_append_cons (l r : List Nat) (a b : Nat) :
    (l ++ a :: r).set l.length b = l ++ b :: r := by
  induction l with
  | nil => simp
  | cons c t ih => simp [ih]

theorem terminate_and_strip_cstr (bs t : List Nat) (x : Nat) :
    TraceOpenat.cstr (terminate_and_strip (bs ++ x :: t) bs.length)
      = TraceOpenat.cstr (strip_newline bs) := by
  rcases List.eq_nil_or_concat bs with rfl | ⟨init, a, rfl⟩
  · simp [terminate_and_strip, strip_newline, TraceOpenat.cstr]
  · rw [List.concat_eq_append]
    have hset : (init ++ [a] ++ x :: t).set (init ++ [a]).length 0 = init ++ a :: 0 :: t := by
      rw [List.set_append_right _ _ (by simp)]
      simp
    have hget : (init ++ a :: 0 :: t).getD ((init ++ [a]).length - 1) 0 = a := by
      have : (init ++ [a]).length - 1 = init.length := by simp
      rw [this]
      exact getD_append_cons init (0 :: t) a 0
    have hpos : (init ++ [a]).length > 0 := by simp
    have hs2 : (init ++ a :: 0 :: t).set ((init ++ [a]).length - 1) 0
        = init ++ 0 :: 0 :: t := by
      have : (init ++ [a]).length - 1 = init.length := by simp
      rw [this]
      exact set_append_cons init (0 :: t) a 0
    simp only [terminate_and_strip, hset, hget, hpos, true_and, hs2]
    by_cases ha : a = 10
    · subst ha
      simp only [if_true]
      rw [cstr_append_zero]
      simp [strip_newline]
    · simp only [ha, if_false]
      have : init ++ a :: 0 :: t = (init ++ [a]) ++ 0 :: t := by simp
      rw [this, cstr_append_zero]
      simp [strip_newline, ha]

theorem promote_kbuf_length (k : Kernel) : k.kbuf.length = PID_BUF_LEN := by
  simp [Kernel.kbuf]

theorem text_of_copy (k : Kernel) (buf count : Nat) (bs : List Nat)
    (h : written_bytes k buf count = some bs) :
    (copy_from_user k.umem k.kbuf buf (min count (PID_BUF_LEN - 1))).1 = 0 ∧
    TraceOpenat.cstr (terminate_and_strip
      (copy_from_user k.umem k.kbuf buf (min count (PID_BUF_LEN - 1))).2
      (min count (PID_BUF_LEN - 1))) = TraceOpenat.cstr (strip_newline bs) ∧
    kstrtoint (terminate_and_strip
      (copy_from_user k.umem k.kbuf buf (min count (PID_BUF_LEN - 1))).2
      (min count (PID_BUF_LEN - 1))) = kstrtoint (strip_newline bs) := by
  unfold written_bytes at h
  have hlen := read_exact_length k.umem _ _ _ h
  have hle : min count (PID_BUF_LEN - 1) ≤ PID_BUF_LEN - 1 := Nat.min_le_right _ _
  have hP : PID_BUF_LEN = 32 := rfl
  obtain ⟨h1, h2, h3⟩ := copy_loop_ok k.umem buf (min count (PID_BUF_LEN - 1)) 0 k.kbuf bs
    (by simpa using h) (by rw [promote_kbuf_length]; omega)
  simp only [Nat.zero_add, List.take_zero, List.nil_append] at h3
  rw [promote_kbuf_length] at h2
  have hd : (copy_from_user k.umem k.kbuf buf (min count (PID_BUF_LEN - 1))).2
      = bs ++ (copy_from_user k.umem k.kbuf buf (min count (PID_BUF_LEN - 1))).2.drop
          (min count (PID_BUF_LEN - 1)) := by
    have := List.take_append_drop (min count (PID_BUF_LEN - 1))
      (copy_from_user k.umem k.kbuf buf (min count (PID_BUF_LEN - 1))).2
    unfold copy_from_user at this ⊢
    rw [h3] at this
    exact this.symm
  have hne : (copy_from_user k.umem k.kbuf buf (min count (PID_BUF_LEN - 1))).2.drop
      (min count (PID_BUF_LEN - 1)) ≠ [] := by
    intro hnil
    have := congrArg List.length hnil
    unfold copy_from_user at this
    rw [List.length_drop, h2] at this
    simp at this
    omega
  obtain ⟨x, t, hxt⟩ := List.exists_cons_of_ne_nil hne
  rw [hxt] at hd
  have hc : TraceOpenat.cstr (terminate_and_strip
      (copy_from_user k.umem k.kbuf buf (min count (PID_BUF_LEN - 1))).2
      (min count (PID_BUF_LEN - 1))) = TraceOpenat.cstr (strip_newline bs) := by
    rw [hd, ← hlen]
    exact terminate_and_strip_cstr bs t x
  refine ⟨h1, hc, ?_⟩
  unfold kstrtoint
  rw [hc]

theorem promote_write_fault (k : Kernel) (buf count : Nat)
    (h : written_bytes k buf count = none) :
    (promote_write k buf count).1 = -EFAULT ∧
    (promote_write k buf count).2 = k.log (Call.copy_from_user buf (min count (PID_BUF_LEN - 1))
      (copy_from_user k.umem k.kbuf buf (min count (PID_BUF_LEN - 1))).1) := by
  unfold written_bytes at h
  have hne := copy_loop_fault k.umem buf (min count (PID_BUF_LEN - 1)) 0 k.kbuf
    (by simpa using h)
  have hne2 : (copy_from_user k.umem k.kbuf buf (min count (PID_BUF_LEN - 1))).1 ≠ 0 := hne
  simp only [promote_write, hne2, ne_eq, not_false_eq_true, if_true, and_self]

theorem ssize_cast_small (count : Nat) (h : count < 2 ^ 63) : ssize_cast count = (count : Int) := by
  unfold ssize_cast
  have h1 : count % 2 ^ 64 = count := Nat.mod_eq_of_lt (by omega)
  rw [h1]
  exact if_pos h

theorem requested_pid_some (bs : List Nat) (v : Int) (h : requested_pid bs = some v) :
    kstrtoint (strip_newline bs) = .ok v ∧ 0 < v := by
  unfold requested_pid at h
  cases hk : kstrtoint (strip_newline bs) with
  | error e => simp [hk] at h
  | ok w =>
    simp only [hk] at h
    by_cases hw : 0 < w
    · simp only [hw, if_true, Option.some.injEq] at h
      subst h
      exact ⟨rfl, hw⟩
    · simp [hw] at h

theorem requested_pid_none (bs : List Nat) (h : requested_pid bs = none) :
    (∃ e, kstrtoint (strip_newline bs) = .error e) ∨
    (∃ v, kstrtoint (strip_newline bs) = .ok v ∧ v ≤ 0) := by
  unfold requested_pid at h
  cases hk : kstrtoint (strip_newline bs) with
  | error e => exact Or.inl ⟨e, rfl⟩
  | ok w =>
    simp only [hk] at h
    by_cases hw : 0 < w
    · simp [hw] at h
    · exact Or.inr ⟨w, rfl, by omega⟩

/-- C11 (amended): take a write to /dev/promote of `count` bytes at `buf`. When
the first min(count, 31) bytes cannot be read, promote_write returns -EFAULT,
attempts no promotion and changes no credentials. When they can be read (bytes
`bs`), it attempts a promotion if and only if `bs`, after one trailing newline is
stripped, parses as a decimal integer greater than 0; otherwise it returns -EINVAL
and changes no credentials. The attempt takes the self-promotion path when the
pid equals the caller's and the remote path otherwise, and when the attempted
promotion succeeds (returns 0) promote_write returns count. -/
theorem promote_write_spec (k : Kernel) (buf count : Nat) (hcount : count < 2 ^ 63) :
    (written_bytes k buf count = none →
      (promote_write k buf count).1 = -EFAULT ∧
      (promote_write k buf count).2.current = k.current ∧
      (promote_write k buf count).2.others = k.others ∧
      (calls_since k (promote_write k buf count).2).any Call.is_attempt = false) ∧
    (∀ bs, written_bytes k buf count = some bs →
      ((calls_since k (promote_write k buf count).2).any Call.is_attempt = true ↔
        ∃ v, requested_pid bs = some v) ∧
      (requested_pid bs = none →
        (promote_write k buf count).1 = -EINVAL ∧
        (promote_write k buf count).2.current = k.current ∧
        (promote_write k buf count).2.others = k.others) ∧
      (∀ v, requested_pid bs = some v →
        (v = k.current.pid →
          (calls_since k (promote_write k buf count).2).filter Call.is_attempt
            = [Call.prepare_creds k.prepare_creds_ok] ∧
          ((promote_self k).1 = 0 → (promote_write k buf count).1 = (count : Int))) ∧
        (v ≠ k.current.pid →
          (calls_since k (promote_write k buf count).2).filter Call.is_attempt
            = [Call.pid_task v (k.others v).isSome] ∧
          ((promote_remote k v).1 = 0 → (promote_write k buf count).1 = (count : Int))))) := by
  constructor
  · intro h
    obtain ⟨h1, h2⟩ := promote_write_fault k buf count h
    rw [h1, h2]
    simp [Kernel.log, calls_since, Call.is_attempt]
  · intro bs h
    obtain ⟨h1, h2, h3⟩ := text_of_copy k buf count bs h
    have hs := ssize_cast_small count hcount
    have hnone : requested_pid bs = none →
        (promote_write k buf count).1 = -EINVAL ∧
        (promote_write k buf count).2.current = k.current ∧
        (promote_write k buf count).2.others = k.others ∧
        (calls_since k (promote_write k buf count).2).any Call.is_attempt = false := by
      intro hn
      rcases requested_pid_none bs hn with ⟨e, he⟩ | ⟨v, hv, hle⟩
      · simp [promote_write, h1, h2, h3, he, Kernel.log, calls_since, Call.is_attempt]
      · simp [promote_write, h1, h2, h3, hv, hle, Kernel.log, calls_since, Call.is_attempt]
    have hsome : ∀ v, requested_pid bs = some v →
        (v = k.current.pid →
          (calls_since k (promote_write k buf count).2).filter Call.is_attempt
            = [Call.prepare_creds k.prepare_creds_ok] ∧
          ((promote_self k).1 = 0 → (promote_write k buf count).1 = (count : Int))) ∧
        (v ≠ k.current.pid →
          (calls_since k (promote_write k buf count).2).filter Call.is_attempt
            = [Call.pid_task v (k.others v).isSome] ∧
          ((promote_remote k v).1 = 0 → (promote_write k buf count).1 = (count : Int))) := by
      intro v hv
      obtain ⟨hk, hpos⟩ := requested_pid_some bs v hv
      have hnle : ¬ v ≤ 0 := by omega
      constructor
      · intro hself
        subst hself
        cases hp : k.prepare_creds_ok with
        | false =>
          simp [promote_write, h1, h2, h3, hk, hnle, promote_self, hp, Kernel.log,
            calls_since, Call.is_attempt, ENOMEM]
        | true =>
          simp [promote_write, h1, h2, h3, hk, hnle, promote_self, hp, Kernel.log,
            calls_since, Call.is_attempt, hs]
      · intro hrem
        cases ho : k.others v with
        | none =>
          simp [promote_write, h1, h2, h3, hk, hnle, hrem, promote_remote, pid_task, ho,
            Kernel.log, calls_since, Call.is_attempt, ESRCH]
        | some task =>
          cases hp : k.prepare_kernel_cred_ok with
          | false =>
            simp [promote_write, h1, h2, h3, hk, hnle, hrem, promote_remote, pid_task, ho, hp,
              Kernel.log, calls_since, Call.is_attempt, ESRCH, ENOMEM]
          | true =>
            simp [promote_write, h1, h2, h3, hk, hnle, hrem, promote_remote, pid_task, ho, hp,
              Kernel.log, calls_since, Call.is_attempt, ESRCH, hs]
    refine ⟨?_, fun hn => ⟨(hnone hn).1, (hnone hn).2.1, (hnone hn).2.2.1⟩, hsome⟩
    constructor
    · intro hany
      cases hr : requested_pid bs with
      | none =>
        rw [(hnone hr).2.2.2] at hany
        exact absurd hany (by decide)
      | some v => exact ⟨v, rfl⟩
    · rintro ⟨v, hv⟩
      by_cases hself : v = k.current.pid
      · have := ((hsome v hv).1 hself).1
        have hm : Call.prepare_creds k.prepare_creds_ok ∈
            (calls_since k (promote_write k buf count).2).filter Call.is_attempt := by
          rw [this]; simp
        rw [List.any_eq_true]
        exact ⟨_, (List.mem_filter.mp hm).1, (List.mem_filter.mp hm).2⟩
      · have := ((hsome v hv).2 hself).1
        have hm : Call.pid_task v (k.others v).isSome ∈
            (calls_since k (promote_write k buf count).2).filter Call.is_attempt := by
          rw [this]; simp
        rw [List.any_eq_true]
        exact ⟨_, (List.mem_filter.mp hm).1, (List.mem_filter.mp hm).2⟩

/-- Witness for C11 (amended): the caller (pid 1000) writes "1000\n" and is
promoted through the self path, writes "77\n" and pid 77 is promoted through the
remote path, and writes "abc" and gets -EINVAL; each write returns its count. -/
theorem promote_write_spec_witness :
    (written_bytes (kernel_with (TraceOpenat.bytes "1000\n")) 4096 5
        = some (TraceOpenat.bytes "1000\n") ∧
      requested_pid (TraceOpenat.bytes "1000\n") = some 1000 ∧
      (calls_since (kernel_with (TraceOpenat.bytes "1000\n"))
          (promote_write (kernel_with (TraceOpenat.bytes "1000\n")) 4096 5).2).filter
          Call.is_attempt = [Call.prepare_creds true] ∧
      (promote_write (kernel_with (TraceOpenat.bytes "1000\n")) 4096 5).1 = ((5 : Nat) : Int)) ∧
    (written_bytes (kernel_with (TraceOpenat.bytes "77\n")) 4096 3
        = some (TraceOpenat.bytes "77\n") ∧
      requested_pid (TraceOpenat.bytes "77\n") = some 77 ∧
      (calls_since (kernel_with (TraceOpenat.bytes "77\n"))
          (promote_write (kernel_with (TraceOpenat.bytes "77\n")) 4096 3).2).filter
          Call.is_attempt = [Call.pid_task 77 true] ∧
      (promote_write (kernel_with (TraceOpenat.bytes "77\n")) 4096 3).1 = ((3 : Nat) : Int)) ∧
    (written_bytes (kernel_with (TraceOpenat.bytes "abc")) 4096 3
        = some (TraceOpenat.bytes "abc") ∧
      requested_pid (TraceOpenat.bytes "abc") = none ∧
      (promote_write (kernel_with (TraceOpenat.bytes "abc")) 4096 3).1 = -EINVAL ∧
      (promote_write (kernel_with (TraceOpenat.bytes "abc")) 4096 3).2.current
        = (kernel_with (TraceOpenat.bytes "abc")).current) :=
  ⟨⟨by decide, by decide,
     ((((promote_write_spec (kernel_with (TraceOpenat.bytes "1000\n")) 4096 5 (by decide)).2
        (TraceOpenat.bytes "1000\n") (by decide)).2.2 1000 (by decide)).1 (by decide)).1,
     ((((promote_write_spec (kernel_with (TraceOpenat.bytes "1000\n")) 4096 5 (by decide)).2
        (TraceOpenat.bytes "1000\n") (by decide)).2.2 1000 (by decide)).1 (by decide)).2
        (by decide)⟩,
   ⟨by decide, by decide,
     ((((promote_write_spec (kernel_with (TraceOpenat.bytes "77\n")) 4096 3 (by decide)).2
        (TraceOpenat.bytes "77\n") (by decide)).2.2 77 (by decide)).2 (by decide)).1,
     ((((promote_write_spec (kernel_with (TraceOpenat.bytes "77\n")) 4096 3 (by decide)).2
        (TraceOpenat.bytes "77\n") (by decide)).2.2 77 (by decide)).2 (by decide)).2
        (by decide)⟩,
   ⟨by decide, by decide,
     (((promote_write_spec (kernel_with (TraceOpenat.bytes "abc")) 4096 3 (by decide)).2
        (TraceOpenat.bytes "abc") (by decide)).2.1 (by decide)).1,
     (((promote_write_spec (kernel_with (TraceOpenat.bytes "abc")) 4096 3 (by decide)).2
        (TraceOpenat.bytes "abc") (by decide)).2.1 (by decide)).2.1⟩⟩

/-- Counterexample to C11 as stated: a write of 3 bytes from the null pointer,
where nothing can be read. No promotion is attempted, so the claim asks for
-EINVAL, but promote_write returns -EFAULT. -/
theorem unreadable_write_returns_efault :
    written_bytes (kernel_with (TraceOpenat.bytes "77\n")) 0 3 = none ∧
    (calls_since (kernel_with (TraceOpenat.bytes "77\n"))
      (promote_write (kernel_with (TraceOpenat.bytes "77\n")) 0 3).2).any Call.is_attempt
      = false ∧
    (promote_write (kernel_with (TraceOpenat.bytes "77\n")) 0 3).1 = -EFAULT ∧
    (promote_write (kernel_with (TraceOpenat.bytes "77\n")) 0 3).1 ≠ -EINVAL := by
  decide

end Promote
